import Mathlib

/-!
Verification of the job state machine, checkpoint/resume engine and the
chunk-based transcript transformation pipeline of the audio translation
service (`translation-service/app`).

The Python source is embedded shallowly:

* pure text manipulation (chunk splitting, merging, cleaning) is embedded as
  executable functions on `List Char` / `String`;
* the filesystem is embedded as an explicit value (a list of existing paths,
  or an association list from path to file content);
* every external collaborator call (audio preprocessing, transcription,
  translation, speech synthesis) is embedded as an explicit outcome value
  (`Except String …`) supplied as a parameter, so theorems quantify over
  collaborator behaviour;
* Python `re.sub` / `re.split` uses are embedded as dedicated scanners that
  implement the specific pattern's matching semantics (leftmost,
  non-overlapping, continuing after the matched region, lazy or greedy as the
  pattern dictates).  Whitespace classes are embedded as the ASCII whitespace
  characters, the only ones that occur in the texts handled here.
-/

namespace AudioTranslation

/-! ## Python string primitives -/

/-- The ASCII whitespace characters recognised by Python's `str.strip()` and
by the regex class matching whitespace. -/
def isPySpace (c : Char) : Bool :=
  c = ' ' || c = '\t' || c = '\n' || c = '\r' || c = '\x0b' || c = '\x0c'

/-- Python `str.lstrip()` on a character list. -/
def lstrip (l : List Char) : List Char := l.dropWhile isPySpace

/-- Python `str.rstrip()` on a character list. -/
def rstrip (l : List Char) : List Char := (l.reverse.dropWhile isPySpace).reverse

/-- Python `str.strip()` on a character list. -/
def pyStrip (l : List Char) : List Char := rstrip (lstrip l)

/-- Python `str.strip()` on a `String`. -/
def strStrip (s : String) : String := ⟨pyStrip s.data⟩

/-- Python `content.split(chr)` on a character list: splits at every
occurrence of the separator, keeping empty pieces, so it always returns at
least one piece. -/
def splitOnChar (sep : Char) : List Char → List (List Char)
  | [] => [[]]
  | c :: rest =>
    let r := splitOnChar sep rest
    if c = sep then [] :: r
    else
      match r with
      | [] => [[c]]
      | p :: ps => (c :: p) :: ps

/-- `content.split('\n')`. -/
def splitLines (l : List Char) : List (List Char) := splitOnChar '\n' l

/-- Python `'\n'.join(lines)`. -/
def joinLines (ls : List (List Char)) : List Char := (ls.intersperse ['\n']).flatten

/-- Python `sep.join(strings)` for strings. -/
def strJoin (sep : String) (ls : List String) : String :=
  String.intercalate sep ls

/-- Whether `pat` occurs as a contiguous sublist of `l` (substring test,
Python's `pat in l`). -/
def containsSub (l pat : List Char) : Bool :=
  (List.range (l.length + 1)).any (fun i => (l.drop i).take pat.length = pat)

/-! ## Job status and job record

Embedding of `app/models/translation_job.py`: the `JobStatus` enum and the
fields of `TranslationJob` the state machine reads or writes.  `datetime`
fields are embedded as a `Bool` recording whether they are set; the
`audio_versions` dictionaries are embedded as records of the fields that the
state machine itself reads or writes (`version`, `path`, `transcript_source`,
`audio_language`). -/

inductive JobStatus
  | UPLOADED
  | PREPROCESSING_AUDIO
  | TRANSCRIBING_SOURCE
  | FORMATTING_SOURCE_TEXT
  | TRANSLATING_TO_TARGET
  | MERGING_TARGET_CHUNKS
  | CLEANING_TARGET_TEXT
  | GENERATING_TARGET_AUDIO
  | COMPLETED
  | FAILED_PREPROCESSING_AUDIO
  | FAILED_TRANSCRIBING_SOURCE
  | FAILED_FORMATTING_SOURCE_TEXT
  | FAILED_TRANSLATING_TO_TARGET
  | FAILED_MERGING_TARGET_CHUNKS
  | FAILED_CLEANING_TARGET_TEXT
  | FAILED_GENERATING_TARGET_AUDIO
  | FAILED
  deriving DecidableEq, Repr

/-- One entry of `TranslationJob.audio_versions` (the fields the code reads
or writes are embedded; `voice_mappings`, timestamps and segment counts are
opaque to every claim and are not modelled). -/
structure AudioVersion where
  version : Nat
  path : String
  transcript_source : String
  audio_language : String
  deriving DecidableEq, Repr

/-- The fields of `TranslationJob` used by the state machine. -/
structure TranslationJob where
  job_id : String
  status : JobStatus
  progress : Nat
  message : String
  error_message : Option String
  source_language : String
  target_language : String
  original_file_path : Option String
  processed_audio_dir : Option String
  chunks_dir : Option String
  raw_transcript_path : Option String
  formatted_transcript_path : Option String
  translation_chunks_dir : Option String
  merged_target_path : Option String
  clean_target_path : Option String
  audio_output_dir : Option String
  final_target_audio_path : Option String
  audio_versions : List AudioVersion
  completed_at_set : Bool
  deriving DecidableEq, Repr

/-- The filesystem as seen through `os.path.exists`: the list of paths that
exist. -/
def FileSys := List String

/-- Python `job.field and os.path.exists(job.field)`: the optional path is
truthy (set and non-empty) and names an existing path. -/
def artifactPresent (fs : FileSys) (p : Option String) : Bool :=
  match p with
  | none => false
  | some s => s ≠ "" && (fs : List String).contains s

/-! ## Resume resolver

Embedding of `determine_resume_point` (`app/main.py`, lines 916-962): a
lookup of the seven step-specific failure statuses, then artifact-existence
probing in reverse pipeline order for every other status. -/

def determine_resume_point (fs : FileSys) (job : TranslationJob) : JobStatus :=
  match job.status with
  | JobStatus.FAILED_PREPROCESSING_AUDIO => JobStatus.PREPROCESSING_AUDIO
  | .FAILED_TRANSCRIBING_SOURCE => .TRANSCRIBING_SOURCE
  | .FAILED_FORMATTING_SOURCE_TEXT => .FORMATTING_SOURCE_TEXT
  | .FAILED_TRANSLATING_TO_TARGET => .TRANSLATING_TO_TARGET
  | .FAILED_MERGING_TARGET_CHUNKS => .MERGING_TARGET_CHUNKS
  | .FAILED_CLEANING_TARGET_TEXT => .CLEANING_TARGET_TEXT
  | JobStatus.FAILED_GENERATING_TARGET_AUDIO => JobStatus.GENERATING_TARGET_AUDIO
  | _ =>
    if artifactPresent fs job.final_target_audio_path then .COMPLETED
    else if artifactPresent fs job.clean_target_path then JobStatus.GENERATING_TARGET_AUDIO
    else if artifactPresent fs job.merged_target_path then .CLEANING_TARGET_TEXT
    else if artifactPresent fs job.translation_chunks_dir then .MERGING_TARGET_CHUNKS
    else if artifactPresent fs job.formatted_transcript_path then .TRANSLATING_TO_TARGET
    else if artifactPresent fs job.raw_transcript_path then .FORMATTING_SOURCE_TEXT
    else if artifactPresent fs job.chunks_dir then .TRANSCRIBING_SOURCE
    else if artifactPresent fs job.processed_audio_dir then JobStatus.PREPROCESSING_AUDIO
    else .UPLOADED

/-- The resume point the specification describes for a job in generic
`FAILED` status: probe the artifacts in strict reverse pipeline order and
resume at the step after the last artifact found.  Stated from the
specification's own words, for comparison with `determine_resume_point`. -/
def specProbeResumePoint (fs : FileSys) (job : TranslationJob) : JobStatus :=
  if artifactPresent fs job.final_target_audio_path then .COMPLETED
  else if artifactPresent fs job.clean_target_path then JobStatus.GENERATING_TARGET_AUDIO
  else if artifactPresent fs job.merged_target_path then .CLEANING_TARGET_TEXT
  else if artifactPresent fs job.translation_chunks_dir then .MERGING_TARGET_CHUNKS
  else if artifactPresent fs job.formatted_transcript_path then .TRANSLATING_TO_TARGET
  else if artifactPresent fs job.raw_transcript_path then .FORMATTING_SOURCE_TEXT
  else if artifactPresent fs job.chunks_dir then .TRANSCRIBING_SOURCE
  else if artifactPresent fs job.processed_audio_dir then JobStatus.PREPROCESSING_AUDIO
  else .UPLOADED

/-- C1: for every job whose status is one of the seven step-specific
`FAILED_<step>` variants, `determine_resume_point` returns exactly the
matching in-progress step status; for a job in generic `FAILED` status it
probes the artifacts in strict reverse pipeline order, returning
`COMPLETED` when the final audio exists, else the in-progress status of the
earliest step whose input artifact is the latest one present, down to
`UPLOADED` when nothing is present. -/
theorem determine_resume_point_spec (fs : FileSys) (job : TranslationJob) :
    (job.status = JobStatus.FAILED_PREPROCESSING_AUDIO →
      determine_resume_point fs job = JobStatus.PREPROCESSING_AUDIO) ∧
    (job.status = .FAILED_TRANSCRIBING_SOURCE →
      determine_resume_point fs job = .TRANSCRIBING_SOURCE) ∧
    (job.status = .FAILED_FORMATTING_SOURCE_TEXT →
      determine_resume_point fs job = .FORMATTING_SOURCE_TEXT) ∧
    (job.status = .FAILED_TRANSLATING_TO_TARGET →
      determine_resume_point fs job = .TRANSLATING_TO_TARGET) ∧
    (job.status = .FAILED_MERGING_TARGET_CHUNKS →
      determine_resume_point fs job = .MERGING_TARGET_CHUNKS) ∧
    (job.status = .FAILED_CLEANING_TARGET_TEXT →
      determine_resume_point fs job = .CLEANING_TARGET_TEXT) ∧
    (job.status = JobStatus.FAILED_GENERATING_TARGET_AUDIO →
      determine_resume_point fs job = JobStatus.GENERATING_TARGET_AUDIO) ∧
    (job.status = .FAILED →
      determine_resume_point fs job = specProbeResumePoint fs job) := by
  refine ⟨?_, ?_, ?_, ?_, ?_, ?_, ?_, ?_⟩ <;>
    intro h <;>
    simp [determine_resume_point, specProbeResumePoint, h]

/-- A sample parked job used to instantiate theorems about the resolver and
the pipeline at concrete inputs. -/
def sampleFailedJob : TranslationJob :=
  { job_id := "job1", status := .FAILED_TRANSLATING_TO_TARGET, progress := 65
    message := "Test failure at translation step", error_message := some "boom"
    source_language := "en", target_language := "ja"
    original_file_path := some "/app/uploads/job1_a.mp3"
    processed_audio_dir := some "/app/outputs/job1/processed"
    chunks_dir := some "/app/outputs/job1/processed/chunks"
    raw_transcript_path := some "/app/outputs/job1/transcript_en_raw.txt"
    formatted_transcript_path := some "/app/outputs/job1/transcript_en_formatted.txt"
    translation_chunks_dir := none, merged_target_path := none
    clean_target_path := none, audio_output_dir := none
    final_target_audio_path := none, audio_versions := []
    completed_at_set := false }

/-- Witness for C1 at a concrete parked job. -/
theorem determine_resume_point_spec_witness :
    sampleFailedJob.status = .FAILED_TRANSLATING_TO_TARGET ∧
      determine_resume_point [] sampleFailedJob = .TRANSLATING_TO_TARGET :=
  ⟨rfl, (determine_resume_point_spec [] sampleFailedJob).2.2.2.1 rfl⟩

/-! ## The pipeline driver

Embedding of `process_translation_job` (`app/main.py`, lines 964-1188): seven
guarded step blocks, each entering the step's in-progress status, performing
the step's call, persisting on success, and on exception setting the step's
`FAILED_` status, the error message, persisting, and returning.

The outcome of each collaborator call is a parameter (`PipelineEffects`).
Three of the seven call sites cannot reach their collaborator at all:

* line 1026 calls `transcription_service.transcribe_chunks(chunks_dir,
  raw_transcript_path, source_language)` with three arguments while
  `TranscriptionService.transcribe_chunks` accepts two, so the call raises
  `TypeError` unconditionally;
* line 1075 calls `translation_service.translate_text(...)` but
  `TranslationService` defines no `translate_text` method, so the attribute
  access raises `AttributeError` unconditionally;
* line 1126 calls `cleaning_service.clean_text(...)` but
  `TextCleaningService` defines no `clean_text` method, so the attribute
  access raises `AttributeError` unconditionally.

Those three calls are embedded as unconditional errors carrying the text of
the exception Python raises. -/

inductive PipeStep
  | preprocess
  | transcribe
  | format
  | translate
  | merge
  | clean
  | generate
  deriving DecidableEq, Repr

/-- Position of a step in the pipeline order. -/
def stepIdx : PipeStep → Nat
  | .preprocess => 0
  | .transcribe => 1
  | .format => 2
  | .translate => 3
  | .merge => 4
  | .clean => 5
  | .generate => 6

/-- The `FAILED_<step>` status of each step (`except` branch of each step
block). -/
def failedStatusOf : PipeStep → JobStatus
  | .preprocess => JobStatus.FAILED_PREPROCESSING_AUDIO
  | .transcribe => .FAILED_TRANSCRIBING_SOURCE
  | .format => .FAILED_FORMATTING_SOURCE_TEXT
  | .translate => .FAILED_TRANSLATING_TO_TARGET
  | .merge => .FAILED_MERGING_TARGET_CHUNKS
  | .clean => .FAILED_CLEANING_TARGET_TEXT
  | .generate => JobStatus.FAILED_GENERATING_TARGET_AUDIO

/-- Outcomes of the collaborator calls that the pipeline can actually reach.
For `preprocess` the payload is the chunk directory returned by
`preprocess_audio` (the cleaned-audio path of the returned pair is unused by
the caller); for the remaining reachable calls the caller ignores the
returned value. -/
structure PipelineEffects where
  preprocessResult : Except String String
  formatResult : Except String String
  mergeResult : Except String String
  generateResult : Except String String

/-- Text of the `TypeError` raised by the three-argument call to the
two-parameter `transcribe_chunks` (main.py line 1026). -/
def transcribeCallError : String :=
  "transcribe_chunks() takes 3 positional arguments but 4 were given"

/-- Text of the `AttributeError` raised by `translation_service.translate_text`
(main.py line 1075; `TranslationService` has no such method). -/
def translateCallError : String :=
  "TranslationService object has no attribute translate_text"

/-- Text of the `AttributeError` raised by `cleaning_service.clean_text`
(main.py line 1126; `TextCleaningService` has no such method). -/
def cleanCallError : String :=
  "TextCleaningService object has no attribute clean_text"

/-- The outcome of the call performed inside each step block. -/
def stepCall (fx : PipelineEffects) : PipeStep → Except String String
  | .preprocess => fx.preprocessResult
  | .transcribe => .error transcribeCallError
  | .format => fx.formatResult
  | .translate => .error translateCallError
  | .merge => fx.mergeResult
  | .clean => .error cleanCallError
  | .generate => fx.generateResult

/-- The guard of each step block: `resume_from in [...]`, with the literal
status list of each `if` in the source (`UPLOADED` up to the step's own
in-progress status). -/
def stepGate (resume : JobStatus) : PipeStep → Bool
  | .preprocess =>
    match resume with
    | .UPLOADED | JobStatus.PREPROCESSING_AUDIO => true
    | _ => false
  | .transcribe =>
    match resume with
    | .UPLOADED | JobStatus.PREPROCESSING_AUDIO | .TRANSCRIBING_SOURCE => true
    | _ => false
  | .format =>
    match resume with
    | .UPLOADED | JobStatus.PREPROCESSING_AUDIO | .TRANSCRIBING_SOURCE
    | .FORMATTING_SOURCE_TEXT => true
    | _ => false
  | .translate =>
    match resume with
    | .UPLOADED | JobStatus.PREPROCESSING_AUDIO | .TRANSCRIBING_SOURCE
    | .FORMATTING_SOURCE_TEXT | .TRANSLATING_TO_TARGET => true
    | _ => false
  | .merge =>
    match resume with
    | .UPLOADED | JobStatus.PREPROCESSING_AUDIO | .TRANSCRIBING_SOURCE
    | .FORMATTING_SOURCE_TEXT | .TRANSLATING_TO_TARGET
    | .MERGING_TARGET_CHUNKS => true
    | _ => false
  | .clean =>
    match resume with
    | .UPLOADED | JobStatus.PREPROCESSING_AUDIO | .TRANSCRIBING_SOURCE
    | .FORMATTING_SOURCE_TEXT | .TRANSLATING_TO_TARGET
    | .MERGING_TARGET_CHUNKS | .CLEANING_TARGET_TEXT => true
    | _ => false
  | .generate =>
    match resume with
    | .UPLOADED | JobStatus.PREPROCESSING_AUDIO | .TRANSCRIBING_SOURCE
    | .FORMATTING_SOURCE_TEXT | .TRANSLATING_TO_TARGET
    | .MERGING_TARGET_CHUNKS | .CLEANING_TARGET_TEXT
    | JobStatus.GENERATING_TARGET_AUDIO => true
    | _ => false

/-- The `.value` string of a status (used by the retry log message). -/
def statusValue : JobStatus → String
  | .UPLOADED => "UPLOADED"
  | JobStatus.PREPROCESSING_AUDIO => "PREPROCESSING_AUDIO"
  | .TRANSCRIBING_SOURCE => "TRANSCRIBING_SOURCE"
  | .FORMATTING_SOURCE_TEXT => "FORMATTING_SOURCE_TEXT"
  | .TRANSLATING_TO_TARGET => "TRANSLATING_TO_TARGET"
  | .MERGING_TARGET_CHUNKS => "MERGING_TARGET_CHUNKS"
  | .CLEANING_TARGET_TEXT => "CLEANING_TARGET_TEXT"
  | JobStatus.GENERATING_TARGET_AUDIO => "GENERATING_TARGET_AUDIO"
  | .COMPLETED => "COMPLETED"
  | JobStatus.FAILED_PREPROCESSING_AUDIO => "FAILED_PREPROCESSING_AUDIO"
  | .FAILED_TRANSCRIBING_SOURCE => "FAILED_TRANSCRIBING_SOURCE"
  | .FAILED_FORMATTING_SOURCE_TEXT => "FAILED_FORMATTING_SOURCE_TEXT"
  | .FAILED_TRANSLATING_TO_TARGET => "FAILED_TRANSLATING_TO_TARGET"
  | .FAILED_MERGING_TARGET_CHUNKS => "FAILED_MERGING_TARGET_CHUNKS"
  | .FAILED_CLEANING_TARGET_TEXT => "FAILED_CLEANING_TARGET_TEXT"
  | JobStatus.FAILED_GENERATING_TARGET_AUDIO => "FAILED_GENERATING_TARGET_AUDIO"
  | .FAILED => "FAILED"

/-- `"English" if job.source_language == "en" else "Japanese"`. -/
def sourceLangName (job : TranslationJob) : String :=
  if job.source_language = "en" then "English" else "Japanese"

/-- `"Japanese" if job.target_language == "ja" else "English"`. -/
def targetLangName (job : TranslationJob) : String :=
  if job.target_language = "ja" then "Japanese" else "English"

/-- The job directory prefix `/app/outputs/{job_id}/`. -/
def outPre (job : TranslationJob) : String :=
  "/app/outputs/" ++ job.job_id ++ "/"

/-- Entry of a step block: set the in-progress status, the entry progress and
the progress message. -/
def stepEnter (s : PipeStep) (j : TranslationJob) : TranslationJob :=
  match s with
  | .preprocess =>
    { j with status := JobStatus.PREPROCESSING_AUDIO, progress := 5
             message := "Preprocessing audio - cleaning and creating chunks..." }
  | .transcribe =>
    { j with status := .TRANSCRIBING_SOURCE, progress := 20
             message := "Transcribing " ++ sourceLangName j ++
               " audio with speaker diarization..." }
  | .format =>
    { j with status := .FORMATTING_SOURCE_TEXT, progress := 45
             message := "Formatting " ++ sourceLangName j ++
               " transcript with speaker tags..." }
  | .translate =>
    { j with status := .TRANSLATING_TO_TARGET, progress := 55
             message := "Translating " ++ sourceLangName j ++ " to " ++
               targetLangName j ++ " in chunks..." }
  | .merge =>
    { j with status := .MERGING_TARGET_CHUNKS, progress := 75
             message := "Merging " ++ targetLangName j ++
               " translation chunks..." }
  | .clean =>
    { j with status := .CLEANING_TARGET_TEXT, progress := 82
             message := "Cleaning " ++ targetLangName j ++
               " text - removing artifacts..." }
  | .generate =>
    { j with status := JobStatus.GENERATING_TARGET_AUDIO, progress := 90
             message := "Generating " ++ targetLangName j ++
               " audio with speaker voices..." }

/-- Success continuation of a step block: record the artifact paths the step
produced and the step's completion progress (`v` is the call's return value,
used only by the preprocessing step for the chunk directory). -/
def stepOk (s : PipeStep) (j : TranslationJob) (v : String) : TranslationJob :=
  match s with
  | .preprocess =>
    { j with processed_audio_dir := some (outPre j ++ "processed")
             chunks_dir := some v, progress := 15 }
  | .transcribe =>
    { j with raw_transcript_path :=
               some (outPre j ++ "transcript_" ++ j.source_language ++ "_raw.txt")
             progress := 40 }
  | .format =>
    { j with formatted_transcript_path :=
               some (outPre j ++ "transcript_" ++ j.source_language ++ "_formatted.txt")
             progress := 50 }
  | .translate =>
    { j with translation_chunks_dir := some (outPre j ++ "translation_chunks")
             progress := 70 }
  | .merge =>
    { j with merged_target_path :=
               some (outPre j ++ "transcript_" ++ j.target_language ++ "_merged.txt")
             progress := 80 }
  | .clean =>
    { j with clean_target_path :=
               some (outPre j ++ "transcript_" ++ j.target_language ++ "_clean.txt")
             progress := 85 }
  | .generate =>
    { j with audio_output_dir := some (outPre j ++ "audio_segments")
             final_target_audio_path :=
               some (outPre j ++ "full_audio_" ++ j.target_language ++ ".mp3")
             progress := 100 }

/-- The human-readable failure message prefix of each step block. -/
def failMsgPre : PipeStep → String
  | .preprocess => "Audio preprocessing failed: "
  | .transcribe => "Transcription failed: "
  | .format => "Text formatting failed: "
  | .translate => "Translation failed: "
  | .merge => "Chunk merging failed: "
  | .clean => "Text cleaning failed: "
  | .generate => "Audio generation failed: "

/-- Exception continuation of a step block: park the job in the step's
`FAILED_` status with the exception text. -/
def stepFail (s : PipeStep) (j : TranslationJob) (e : String) : TranslationJob :=
  { j with status := failedStatusOf s, error_message := some e
           message := failMsgPre s ++ e }

/-- The artifact path fields a step sets on success. -/
def stepFields (s : PipeStep) (j : TranslationJob) : List (Option String) :=
  match s with
  | .preprocess => [j.processed_audio_dir, j.chunks_dir]
  | .transcribe => [j.raw_transcript_path]
  | .format => [j.formatted_transcript_path]
  | .translate => [j.translation_chunks_dir]
  | .merge => [j.merged_target_path]
  | .clean => [j.clean_target_path]
  | .generate => [j.audio_output_dir, j.final_target_audio_path]

/-- State threaded through the step blocks: the job, the trace of executed
step blocks, the snapshots passed to `save_job_to_disk`, and whether an
`except` branch has returned from the function. -/
structure RunState where
  job : TranslationJob
  executed : List PipeStep
  saves : List TranslationJob
  halted : Bool
  deriving Repr

/-- One guarded step block of `process_translation_job`. -/
def runStep (fx : PipelineEffects) (resume : JobStatus) (st : RunState)
    (s : PipeStep) : RunState :=
  if st.halted then st
  else if stepGate resume s then
    let j1 := stepEnter s st.job
    match stepCall fx s with
    | .ok v =>
      let j2 := stepOk s j1 v
      ⟨j2, st.executed ++ [s], st.saves ++ [j2], false⟩
    | .error e =>
      let j2 := stepFail s j1 e
      ⟨j2, st.executed ++ [s], st.saves ++ [j2], true⟩
  else st

/-- The seven step blocks in source order. -/
def pipelineSteps : List PipeStep :=
  [.preprocess, .transcribe, .format, .translate, .merge, .clean, .generate]

/-- The starting point of a run: the resolver's answer for a retry,
`UPLOADED` for a fresh run. -/
def resumeOf (fs : FileSys) (isRetry : Bool) (job0 : TranslationJob) : JobStatus :=
  if isRetry then determine_resume_point fs job0 else .UPLOADED

/-- The job as it stands when the step blocks begin (a retry records the
resume point in the message first). -/
def initJob (fs : FileSys) (isRetry : Bool) (job0 : TranslationJob) : TranslationJob :=
  if isRetry then
    { job0 with message := "Retrying from step: " ++ statusValue (resumeOf fs isRetry job0) }
  else job0

/-- The tail of `process_translation_job`: if no step block returned early,
mark the job `COMPLETED` and persist. -/
def completeRun (st : RunState) : RunState :=
  if st.halted then st
  else
    { st with
      job := { st.job with status := .COMPLETED
                           message := "Translation completed successfully! 🎉"
                           completed_at_set := true }
      saves := st.saves ++
        [{ st.job with status := .COMPLETED
                       message := "Translation completed successfully! 🎉"
                       completed_at_set := true }] }

/-- Embedding of `process_translation_job`: resolve the resume point (fresh
runs start at `UPLOADED`), run the guarded step blocks in order, and if no
step returned early, mark the job `COMPLETED`. -/
def process_translation_job (fs : FileSys) (fx : PipelineEffects)
    (isRetry : Bool) (job0 : TranslationJob) : RunState :=
  completeRun (pipelineSteps.foldl (runStep fx (resumeOf fs isRetry job0))
    ⟨initJob fs isRetry job0, [], [], false⟩)

/-- C2: a fresh run can never reach `COMPLETED`: even when the preprocessing
collaborator succeeds (and whatever the remaining collaborators would do),
the three-argument call to the two-parameter `transcribe_chunks` raises, so
the job parks at `FAILED_TRANSCRIBING_SOURCE` with progress 20 and its final
audio path is never set — contradicting the claimed
`UPLOADED → … → COMPLETED` happy path. -/
theorem fresh_run_parks_at_transcription (fs : FileSys) (fx : PipelineEffects)
    (job0 : TranslationJob) (v : String)
    (hp : fx.preprocessResult = .ok v) :
    let r := process_translation_job fs fx false job0
    r.job.status = .FAILED_TRANSCRIBING_SOURCE ∧
    r.job.status ≠ .COMPLETED ∧
    r.job.progress = 20 ∧
    r.job.error_message = some transcribeCallError ∧
    r.job.final_target_audio_path = job0.final_target_audio_path ∧
    r.executed = [.preprocess, .transcribe] ∧
    r.saves.map (fun j => j.status) =
      [JobStatus.PREPROCESSING_AUDIO, .FAILED_TRANSCRIBING_SOURCE] := by
  simp only [process_translation_job, completeRun, resumeOf, initJob,
    pipelineSteps, List.foldl_cons, List.foldl_nil, runStep, stepGate,
    stepCall, hp, stepEnter, stepOk, stepFail, failedStatusOf, failMsgPre]
  simp

/-- Sample collaborator effects in which every reachable collaborator call
succeeds. -/
def allOkEffects : PipelineEffects :=
  { preprocessResult := .ok "/app/outputs/job1/processed/chunks"
    formatResult := .ok "/app/outputs/job1/transcript_en_formatted.txt"
    mergeResult := .ok "/app/outputs/job1/transcript_ja_merged.txt"
    generateResult := .ok "/app/outputs/job1/full_audio_ja.mp3" }

/-- A freshly uploaded job, as built by the upload endpoint. -/
def sampleFreshJob : TranslationJob :=
  { job_id := "job1", status := .UPLOADED, progress := 0
    message := "", error_message := none
    source_language := "en", target_language := "ja"
    original_file_path := some "/app/uploads/job1_a.mp3"
    processed_audio_dir := none, chunks_dir := none
    raw_transcript_path := none, formatted_transcript_path := none
    translation_chunks_dir := none, merged_target_path := none
    clean_target_path := none, audio_output_dir := none
    final_target_audio_path := none, audio_versions := []
    completed_at_set := false }

/-- Witness for C2 at a concrete fresh job with all collaborators
succeeding. -/
theorem fresh_run_parks_at_transcription_witness :
    allOkEffects.preprocessResult = .ok "/app/outputs/job1/processed/chunks" ∧
    (process_translation_job [] allOkEffects false sampleFreshJob).job.status =
      .FAILED_TRANSCRIBING_SOURCE :=
  ⟨rfl,
    (fresh_run_parks_at_transcription [] allOkEffects sampleFreshJob
      "/app/outputs/job1/processed/chunks" rfl).1⟩

set_option maxHeartbeats 1000000 in
/-- Analysis of the step-block fold: when an executed step block's call
errors, the fold halted there with the matching `FAILED_` status and error
recorded in the last persisted snapshot, no later block executed, untouched
steps' artifact fields unchanged, and every earlier executed block's
artifact fields set. -/
theorem runCoreFailure (fx : PipelineEffects) (resume : JobStatus)
    (j0 : TranslationJob) (s : PipeStep) (e : String)
    (hs : s ∈ (pipelineSteps.foldl (runStep fx resume) ⟨j0, [], [], false⟩).executed)
    (he : stepCall fx s = .error e) :
    (pipelineSteps.foldl (runStep fx resume) ⟨j0, [], [], false⟩).halted = true ∧
    (pipelineSteps.foldl (runStep fx resume) ⟨j0, [], [], false⟩).job.status =
      failedStatusOf s ∧
    (pipelineSteps.foldl (runStep fx resume) ⟨j0, [], [], false⟩).job.error_message =
      some e ∧
    (pipelineSteps.foldl (runStep fx resume) ⟨j0, [], [], false⟩).saves.getLast? =
      some (pipelineSteps.foldl (runStep fx resume) ⟨j0, [], [], false⟩).job ∧
    (∀ t ∈ (pipelineSteps.foldl (runStep fx resume) ⟨j0, [], [], false⟩).executed,
      stepIdx t ≤ stepIdx s) ∧
    (∀ t, t ∉ (pipelineSteps.foldl (runStep fx resume) ⟨j0, [], [], false⟩).executed →
      stepFields t (pipelineSteps.foldl (runStep fx resume) ⟨j0, [], [], false⟩).job =
        stepFields t j0) ∧
    (∀ t ∈ (pipelineSteps.foldl (runStep fx resume) ⟨j0, [], [], false⟩).executed,
      t ≠ s →
      (stepFields t (pipelineSteps.foldl (runStep fx resume) ⟨j0, [], [], false⟩).job).all
        Option.isSome) := by
  cases resume
  case UPLOADED =>
    rcases hpre : fx.preprocessResult with e1 | v1
    · have hfold : pipelineSteps.foldl (runStep fx .UPLOADED) ⟨j0, [], [], false⟩ =
          ⟨stepFail .preprocess (stepEnter .preprocess j0) e1, [.preprocess],
        [stepFail .preprocess (stepEnter .preprocess j0) e1], true⟩ := by
        simp [pipelineSteps, runStep, stepGate, stepCall, hpre]
      rw [hfold] at hs ⊢
      simp at hs
      subst hs
      simp only [stepCall, hpre, Except.error.injEq] at he
      subst he
      refine ⟨rfl, rfl, rfl, rfl, ?_, ?_, ?_⟩
      · intro t ht
        simp at ht
        subst ht
        decide
      · intro t ht
        cases t <;> simp_all [stepFields, stepEnter, stepFail, failedStatusOf, failMsgPre]
      · intro t ht hne
        simp at ht
        subst ht
        exact absurd rfl hne
    · have hfold : pipelineSteps.foldl (runStep fx .UPLOADED) ⟨j0, [], [], false⟩ =
          ⟨stepFail .transcribe (stepEnter .transcribe
          (stepOk .preprocess (stepEnter .preprocess j0) v1)) transcribeCallError,
        [.preprocess, .transcribe],
        [stepOk .preprocess (stepEnter .preprocess j0) v1,
         stepFail .transcribe (stepEnter .transcribe
           (stepOk .preprocess (stepEnter .preprocess j0) v1)) transcribeCallError],
        true⟩ := by
        simp [pipelineSteps, runStep, stepGate, stepCall, hpre]
      rw [hfold] at hs ⊢
      simp at hs
      rcases hs with hs | hs <;> subst hs
      · simp only [stepCall, hpre] at he
        cases he
      · simp only [stepCall, Except.error.injEq] at he
        subst he
        refine ⟨rfl, rfl, rfl, rfl, ?_, ?_, ?_⟩
        · intro t ht
          simp at ht
          rcases ht with ht | ht <;> subst ht <;> decide
        · intro t ht
          cases t <;>
            simp_all [stepFields, stepEnter, stepOk, stepFail, failedStatusOf, failMsgPre]
        · intro t ht hne
          simp at ht
          rcases ht with ht | ht <;> subst ht
          · simp [stepFields, stepEnter, stepOk, stepFail]
          · exact absurd rfl hne
  case PREPROCESSING_AUDIO =>
    rcases hpre : fx.preprocessResult with e1 | v1
    · have hfold : pipelineSteps.foldl (runStep fx JobStatus.PREPROCESSING_AUDIO) ⟨j0, [], [], false⟩ =
          ⟨stepFail .preprocess (stepEnter .preprocess j0) e1, [.preprocess],
        [stepFail .preprocess (stepEnter .preprocess j0) e1], true⟩ := by
        simp [pipelineSteps, runStep, stepGate, stepCall, hpre]
      rw [hfold] at hs ⊢
      simp at hs
      subst hs
      simp only [stepCall, hpre, Except.error.injEq] at he
      subst he
      refine ⟨rfl, rfl, rfl, rfl, ?_, ?_, ?_⟩
      · intro t ht
        simp at ht
        subst ht
        decide
      · intro t ht
        cases t <;> simp_all [stepFields, stepEnter, stepFail, failedStatusOf, failMsgPre]
      · intro t ht hne
        simp at ht
        subst ht
        exact absurd rfl hne
    · have hfold : pipelineSteps.foldl (runStep fx JobStatus.PREPROCESSING_AUDIO) ⟨j0, [], [], false⟩ =
          ⟨stepFail .transcribe (stepEnter .transcribe
          (stepOk .preprocess (stepEnter .preprocess j0) v1)) transcribeCallError,
        [.preprocess, .transcribe],
        [stepOk .preprocess (stepEnter .preprocess j0) v1,
         stepFail .transcribe (stepEnter .transcribe
           (stepOk .preprocess (stepEnter .preprocess j0) v1)) transcribeCallError],
        true⟩ := by
        simp [pipelineSteps, runStep, stepGate, stepCall, hpre]
      rw [hfold] at hs ⊢
      simp at hs
      rcases hs with hs | hs <;> subst hs
      · simp only [stepCall, hpre] at he
        cases he
      · simp only [stepCall, Except.error.injEq] at he
        subst he
        refine ⟨rfl, rfl, rfl, rfl, ?_, ?_, ?_⟩
        · intro t ht
          simp at ht
          rcases ht with ht | ht <;> subst ht <;> decide
        · intro t ht
          cases t <;>
            simp_all [stepFields, stepEnter, stepOk, stepFail, failedStatusOf, failMsgPre]
        · intro t ht hne
          simp at ht
          rcases ht with ht | ht <;> subst ht
          · simp [stepFields, stepEnter, stepOk, stepFail]
          · exact absurd rfl hne
  case TRANSCRIBING_SOURCE =>
    have hfold : pipelineSteps.foldl (runStep fx .TRANSCRIBING_SOURCE) ⟨j0, [], [], false⟩ =
        ⟨stepFail .transcribe (stepEnter .transcribe j0) transcribeCallError, [.transcribe],
    [stepFail .transcribe (stepEnter .transcribe j0) transcribeCallError], true⟩ := by
      simp [pipelineSteps, runStep, stepGate, stepCall]
    rw [hfold] at hs ⊢
    simp at hs
    subst hs
    simp only [stepCall, Except.error.injEq] at he
    subst he
    refine ⟨rfl, rfl, rfl, rfl, ?_, ?_, ?_⟩
    · intro t ht
      simp at ht
      subst ht
      decide
    · intro t ht
      cases t <;> simp_all [stepFields, stepEnter, stepFail, failedStatusOf, failMsgPre]
    · intro t ht hne
      simp at ht
      subst ht
      exact absurd rfl hne
  case FORMATTING_SOURCE_TEXT =>
    rcases hfmt : fx.formatResult with e2 | v2
    · have hfold : pipelineSteps.foldl (runStep fx .FORMATTING_SOURCE_TEXT) ⟨j0, [], [], false⟩ =
          ⟨stepFail .format (stepEnter .format j0) e2, [.format],
        [stepFail .format (stepEnter .format j0) e2], true⟩ := by
        simp [pipelineSteps, runStep, stepGate, stepCall, hfmt]
      rw [hfold] at hs ⊢
      simp at hs
      subst hs
      simp only [stepCall, hfmt, Except.error.injEq] at he
      subst he
      refine ⟨rfl, rfl, rfl, rfl, ?_, ?_, ?_⟩
      · intro t ht
        simp at ht
        subst ht
        decide
      · intro t ht
        cases t <;> simp_all [stepFields, stepEnter, stepFail, failedStatusOf, failMsgPre]
      · intro t ht hne
        simp at ht
        subst ht
        exact absurd rfl hne
    · have hfold : pipelineSteps.foldl (runStep fx .FORMATTING_SOURCE_TEXT) ⟨j0, [], [], false⟩ =
          ⟨stepFail .translate (stepEnter .translate
          (stepOk .format (stepEnter .format j0) v2)) translateCallError,
        [.format, .translate],
        [stepOk .format (stepEnter .format j0) v2,
         stepFail .translate (stepEnter .translate
           (stepOk .format (stepEnter .format j0) v2)) translateCallError],
        true⟩ := by
        simp [pipelineSteps, runStep, stepGate, stepCall, hfmt]
      rw [hfold] at hs ⊢
      simp at hs
      rcases hs with hs | hs <;> subst hs
      · simp only [stepCall, hfmt] at he
        cases he
      · simp only [stepCall, Except.error.injEq] at he
        subst he
        refine ⟨rfl, rfl, rfl, rfl, ?_, ?_, ?_⟩
        · intro t ht
          simp at ht
          rcases ht with ht | ht <;> subst ht <;> decide
        · intro t ht
          cases t <;>
            simp_all [stepFields, stepEnter, stepOk, stepFail, failedStatusOf, failMsgPre]
        · intro t ht hne
          simp at ht
          rcases ht with ht | ht <;> subst ht
          · simp [stepFields, stepEnter, stepOk, stepFail]
          · exact absurd rfl hne
  case TRANSLATING_TO_TARGET =>
    have hfold : pipelineSteps.foldl (runStep fx .TRANSLATING_TO_TARGET) ⟨j0, [], [], false⟩ =
        ⟨stepFail .translate (stepEnter .translate j0) translateCallError, [.translate],
    [stepFail .translate (stepEnter .translate j0) translateCallError], true⟩ := by
      simp [pipelineSteps, runStep, stepGate, stepCall]
    rw [hfold] at hs ⊢
    simp at hs
    subst hs
    simp only [stepCall, Except.error.injEq] at he
    subst he
    refine ⟨rfl, rfl, rfl, rfl, ?_, ?_, ?_⟩
    · intro t ht
      simp at ht
      subst ht
      decide
    · intro t ht
      cases t <;> simp_all [stepFields, stepEnter, stepFail, failedStatusOf, failMsgPre]
    · intro t ht hne
      simp at ht
      subst ht
      exact absurd rfl hne
  case MERGING_TARGET_CHUNKS =>
    rcases hmrg : fx.mergeResult with e3 | v3
    · have hfold : pipelineSteps.foldl (runStep fx .MERGING_TARGET_CHUNKS) ⟨j0, [], [], false⟩ =
          ⟨stepFail .merge (stepEnter .merge j0) e3, [.merge],
        [stepFail .merge (stepEnter .merge j0) e3], true⟩ := by
        simp [pipelineSteps, runStep, stepGate, stepCall, hmrg]
      rw [hfold] at hs ⊢
      simp at hs
      subst hs
      simp only [stepCall, hmrg, Except.error.injEq] at he
      subst he
      refine ⟨rfl, rfl, rfl, rfl, ?_, ?_, ?_⟩
      · intro t ht
        simp at ht
        subst ht
        decide
      · intro t ht
        cases t <;> simp_all [stepFields, stepEnter, stepFail, failedStatusOf, failMsgPre]
      · intro t ht hne
        simp at ht
        subst ht
        exact absurd rfl hne
    · have hfold : pipelineSteps.foldl (runStep fx .MERGING_TARGET_CHUNKS) ⟨j0, [], [], false⟩ =
          ⟨stepFail .clean (stepEnter .clean
          (stepOk .merge (stepEnter .merge j0) v3)) cleanCallError,
        [.merge, .clean],
        [stepOk .merge (stepEnter .merge j0) v3,
         stepFail .clean (stepEnter .clean
           (stepOk .merge (stepEnter .merge j0) v3)) cleanCallError],
        true⟩ := by
        simp [pipelineSteps, runStep, stepGate, stepCall, hmrg]
      rw [hfold] at hs ⊢
      simp at hs
      rcases hs with hs | hs <;> subst hs
      · simp only [stepCall, hmrg] at he
        cases he
      · simp only [stepCall, Except.error.injEq] at he
        subst he
        refine ⟨rfl, rfl, rfl, rfl, ?_, ?_, ?_⟩
        · intro t ht
          simp at ht
          rcases ht with ht | ht <;> subst ht <;> decide
        · intro t ht
          cases t <;>
            simp_all [stepFields, stepEnter, stepOk, stepFail, failedStatusOf, failMsgPre]
        · intro t ht hne
          simp at ht
          rcases ht with ht | ht <;> subst ht
          · simp [stepFields, stepEnter, stepOk, stepFail]
          · exact absurd rfl hne
  case CLEANING_TARGET_TEXT =>
    have hfold : pipelineSteps.foldl (runStep fx .CLEANING_TARGET_TEXT) ⟨j0, [], [], false⟩ =
        ⟨stepFail .clean (stepEnter .clean j0) cleanCallError, [.clean],
    [stepFail .clean (stepEnter .clean j0) cleanCallError], true⟩ := by
      simp [pipelineSteps, runStep, stepGate, stepCall]
    rw [hfold] at hs ⊢
    simp at hs
    subst hs
    simp only [stepCall, Except.error.injEq] at he
    subst he
    refine ⟨rfl, rfl, rfl, rfl, ?_, ?_, ?_⟩
    · intro t ht
      simp at ht
      subst ht
      decide
    · intro t ht
      cases t <;> simp_all [stepFields, stepEnter, stepFail, failedStatusOf, failMsgPre]
    · intro t ht hne
      simp at ht
      subst ht
      exact absurd rfl hne
  case GENERATING_TARGET_AUDIO =>
    rcases hgen : fx.generateResult with e4 | v4
    · have hfold : pipelineSteps.foldl (runStep fx JobStatus.GENERATING_TARGET_AUDIO) ⟨j0, [], [], false⟩ =
          ⟨stepFail .generate (stepEnter .generate j0) e4, [.generate],
        [stepFail .generate (stepEnter .generate j0) e4], true⟩ := by
        simp [pipelineSteps, runStep, stepGate, stepCall, hgen]
      rw [hfold] at hs ⊢
      simp at hs
      subst hs
      simp only [stepCall, hgen, Except.error.injEq] at he
      subst he
      refine ⟨rfl, rfl, rfl, rfl, ?_, ?_, ?_⟩
      · intro t ht
        simp at ht
        subst ht
        decide
      · intro t ht
        cases t <;> simp_all [stepFields, stepEnter, stepFail, failedStatusOf, failMsgPre]
      · intro t ht hne
        simp at ht
        subst ht
        exact absurd rfl hne
    · have hfold : pipelineSteps.foldl (runStep fx JobStatus.GENERATING_TARGET_AUDIO) ⟨j0, [], [], false⟩ =
          ⟨stepOk .generate (stepEnter .generate j0) v4, [.generate],
        [stepOk .generate (stepEnter .generate j0) v4], false⟩ := by
        simp [pipelineSteps, runStep, stepGate, stepCall, hgen]
      rw [hfold] at hs ⊢
      simp at hs
      subst hs
      simp only [stepCall, hgen] at he
      cases he
  case COMPLETED =>
    have hfold : pipelineSteps.foldl (runStep fx .COMPLETED) ⟨j0, [], [], false⟩ =
        ⟨j0, [], [], false⟩ := by
      simp [pipelineSteps, runStep, stepGate]
    rw [hfold] at hs
    simp at hs
  case FAILED_PREPROCESSING_AUDIO =>
    have hfold : pipelineSteps.foldl (runStep fx JobStatus.FAILED_PREPROCESSING_AUDIO) ⟨j0, [], [], false⟩ =
        ⟨j0, [], [], false⟩ := by
      simp [pipelineSteps, runStep, stepGate]
    rw [hfold] at hs
    simp at hs
  case FAILED_TRANSCRIBING_SOURCE =>
    have hfold : pipelineSteps.foldl (runStep fx .FAILED_TRANSCRIBING_SOURCE) ⟨j0, [], [], false⟩ =
        ⟨j0, [], [], false⟩ := by
      simp [pipelineSteps, runStep, stepGate]
    rw [hfold] at hs
    simp at hs
  case FAILED_FORMATTING_SOURCE_TEXT =>
    have hfold : pipelineSteps.foldl (runStep fx .FAILED_FORMATTING_SOURCE_TEXT) ⟨j0, [], [], false⟩ =
        ⟨j0, [], [], false⟩ := by
      simp [pipelineSteps, runStep, stepGate]
    rw [hfold] at hs
    simp at hs
  case FAILED_TRANSLATING_TO_TARGET =>
    have hfold : pipelineSteps.foldl (runStep fx .FAILED_TRANSLATING_TO_TARGET) ⟨j0, [], [], false⟩ =
        ⟨j0, [], [], false⟩ := by
      simp [pipelineSteps, runStep, stepGate]
    rw [hfold] at hs
    simp at hs
  case FAILED_MERGING_TARGET_CHUNKS =>
    have hfold : pipelineSteps.foldl (runStep fx .FAILED_MERGING_TARGET_CHUNKS) ⟨j0, [], [], false⟩ =
        ⟨j0, [], [], false⟩ := by
      simp [pipelineSteps, runStep, stepGate]
    rw [hfold] at hs
    simp at hs
  case FAILED_CLEANING_TARGET_TEXT =>
    have hfold : pipelineSteps.foldl (runStep fx .FAILED_CLEANING_TARGET_TEXT) ⟨j0, [], [], false⟩ =
        ⟨j0, [], [], false⟩ := by
      simp [pipelineSteps, runStep, stepGate]
    rw [hfold] at hs
    simp at hs
  case FAILED_GENERATING_TARGET_AUDIO =>
    have hfold : pipelineSteps.foldl (runStep fx JobStatus.FAILED_GENERATING_TARGET_AUDIO) ⟨j0, [], [], false⟩ =
        ⟨j0, [], [], false⟩ := by
      simp [pipelineSteps, runStep, stepGate]
    rw [hfold] at hs
    simp at hs
  case FAILED =>
    have hfold : pipelineSteps.foldl (runStep fx .FAILED) ⟨j0, [], [], false⟩ =
        ⟨j0, [], [], false⟩ := by
      simp [pipelineSteps, runStep, stepGate]
    rw [hfold] at hs
    simp at hs
/-- C9: for every pipeline step, if the step's execution raises, the job is
parked in exactly that step's `FAILED_<step>` status with `error_message` set
to the exception's text, the final job state is the last persisted snapshot,
no later step block executes in that run, the artifact path fields of steps
the run did not execute are unchanged, and every earlier executed step's
artifact path fields are set (nothing is rolled back). -/
theorem process_translation_job_step_failure (fs : FileSys)
    (fx : PipelineEffects) (isRetry : Bool) (job0 : TranslationJob)
    (s : PipeStep) (e : String)
    (hs : s ∈ (process_translation_job fs fx isRetry job0).executed)
    (he : stepCall fx s = .error e) :
    (process_translation_job fs fx isRetry job0).job.status = failedStatusOf s ∧
    (process_translation_job fs fx isRetry job0).job.error_message = some e ∧
    (process_translation_job fs fx isRetry job0).saves.getLast? =
      some (process_translation_job fs fx isRetry job0).job ∧
    (∀ t ∈ (process_translation_job fs fx isRetry job0).executed,
      stepIdx t ≤ stepIdx s) ∧
    (∀ t, t ∉ (process_translation_job fs fx isRetry job0).executed →
      stepFields t (process_translation_job fs fx isRetry job0).job =
        stepFields t job0) ∧
    (∀ t ∈ (process_translation_job fs fx isRetry job0).executed, t ≠ s →
      (stepFields t (process_translation_job fs fx isRetry job0).job).all
        Option.isSome) := by
  have hs' : s ∈ (pipelineSteps.foldl (runStep fx (resumeOf fs isRetry job0))
      ⟨initJob fs isRetry job0, [], [], false⟩).executed := by
    unfold process_translation_job completeRun at hs
    split at hs
    · exact hs
    · simpa using hs
  obtain ⟨hhalt, h1, h2, h3, h4, h5, h6⟩ :=
    runCoreFailure fx (resumeOf fs isRetry job0) (initJob fs isRetry job0) s e hs' he
  have hrun : process_translation_job fs fx isRetry job0 =
      pipelineSteps.foldl (runStep fx (resumeOf fs isRetry job0))
        ⟨initJob fs isRetry job0, [], [], false⟩ := by
    unfold process_translation_job completeRun
    simp [hhalt]
  rw [hrun]
  refine ⟨h1, h2, h3, h4, ?_, h6⟩
  intro t ht
  rw [h5 t ht]
  cases isRetry <;> cases t <;> simp [initJob, stepFields]

/-- Collaborator effects whose preprocessing call fails. -/
def failingPreprocessEffects : PipelineEffects :=
  { preprocessResult := .error "disk full"
    formatResult := .ok ""
    mergeResult := .ok ""
    generateResult := .ok "" }

/-- Witness for C9 at a fresh run whose preprocessing step fails. -/
theorem process_translation_job_step_failure_witness :
    PipeStep.preprocess ∈
      (process_translation_job [] failingPreprocessEffects false sampleFreshJob).executed ∧
    stepCall failingPreprocessEffects .preprocess = .error "disk full" ∧
    (process_translation_job [] failingPreprocessEffects false sampleFreshJob).job.status =
      JobStatus.FAILED_PREPROCESSING_AUDIO :=
  ⟨by decide, rfl,
    (process_translation_job_step_failure [] failingPreprocessEffects false
      sampleFreshJob .preprocess "disk full" (by decide) rfl).1⟩

/-! ## Audio regeneration

Embedding of the regeneration endpoint's version computation
(`regenerate_audio`, main.py lines 653-657) and of the background task
`process_audio_regeneration` (main.py lines 682-799).  The speech-synthesis
collaborator call and the filesystem checks are outcome parameters
(`RegenEffects`); `generate_audio_with_custom_voices` (tts_service.py)
returns a dictionary whose `output_file` entry is exactly the `output_file`
argument it was given, so the embedding uses the computed final audio path as
`actual_output_path`. -/

/-- `next_version` computation of `regenerate_audio`: start at 2 and for each
recorded entry whose version is at least the running value, move to that
version plus one. -/
def next_version (versions : List AudioVersion) : Nat :=
  versions.foldl (fun nv vi => if nv ≤ vi.version then vi.version + 1 else nv) 2

/-- The largest recorded version number (the specification's "maximum
recorded version"). -/
def maxRecordedVersion (versions : List AudioVersion) : Nat :=
  versions.foldl (fun m vi => Nat.max m vi.version) 0

/-- The version-suffixed final audio path of a regeneration
(`/app/outputs/{job_id}/full_audio_{audio_language}_v{version}.mp3`). -/
def regenFinalPath (job_id lang : String) (version : Nat) : String :=
  "/app/outputs/" ++ job_id ++ "/full_audio_" ++ lang ++ "_v" ++ toString version ++ ".mp3"

/-- The version-1 final audio path written by the pipeline
(`/app/outputs/{job_id}/full_audio_{lang}.mp3`). -/
def v1AudioPath (job_id lang : String) : String :=
  "/app/outputs/" ++ job_id ++ "/full_audio_" ++ lang ++ ".mp3"

/-- Metadata of a successful custom-voice generation (the `output_file` entry
is the final audio path the call was given, see above; the voice map is
opaque to every claim). -/
structure RegenOutput where
  total_segments : Nat
  successful_segments : Nat
  failed_speakers : List String
  deriving DecidableEq, Repr

/-- Outcomes of the checks and calls `process_audio_regeneration` performs:
whether the transcript file exists, its content, the TTS client
initialisation, the generation call, and the existence and size of the
produced audio file. -/
structure RegenEffects where
  transcriptExists : Bool
  transcriptContent : String
  ttsInit : Except String Unit
  generateResult : Except String RegenOutput
  outputExists : Bool
  outputSize : Nat

/-- Result of the regeneration background task: the final job and whether the
`try` body ran to completion (`false` means the `except` handler ran). -/
structure RegenResult where
  job : TranslationJob
  ok : Bool
  deriving Repr

/-- The `except` handler of `process_audio_regeneration`: only the message is
updated. -/
def regenFail (version : Nat) (j : TranslationJob) (e : String) : RegenResult :=
  ⟨{ j with message := "Audio regeneration (v" ++ toString version ++ ") failed: " ++ e },
    false⟩

/-- Embedding of `process_audio_regeneration`: update the progress message,
re-check the transcript, initialise TTS, generate to the version-suffixed
paths, verify the output, and only then append the version record and the
completion message.  Any failure runs the `except` handler instead. -/
def process_audio_regeneration (fx : RegenEffects) (version : Nat)
    (transcript_path audio_language transcript_type : String)
    (job : TranslationJob) : RegenResult :=
  let lang_name := if audio_language = "ja" then "Japanese" else "English"
  let j1 := { job with message :=
    "Regenerating audio (v" ++ toString version ++ ") from " ++ transcript_type ++
      " transcript (" ++ lang_name ++ ")..." }
  if transcript_path = "" ∨ fx.transcriptExists = false then
    regenFail version j1 ("Transcript file not found: " ++ transcript_path)
  else if strStrip fx.transcriptContent = "" then
    regenFail version j1 "Transcript file is empty"
  else
    match fx.ttsInit with
    | .error e =>
      regenFail version j1
        ("Failed to initialize TTS service (check Google Cloud credentials): " ++ e)
    | .ok _ =>
      match fx.generateResult with
      | .error e => regenFail version j1 e
      | .ok out =>
        let actual_output_path := regenFinalPath j1.job_id audio_language version
        if fx.outputExists = false then
          regenFail version j1 ("Audio file was not created at " ++ actual_output_path)
        else if fx.outputSize < 1000 then
          regenFail version j1 ("Generated audio file is too small (" ++
            toString fx.outputSize ++ " bytes). TTS may have failed.")
        else
          let vi : AudioVersion :=
            { version := version, path := actual_output_path
              transcript_source := transcript_type, audio_language := audio_language }
          ⟨{ j1 with
              audio_versions := j1.audio_versions ++ [vi]
              message :=
                if out.failed_speakers.length ≠ 0 then
                  "Audio v" ++ toString version ++ " (" ++ lang_name ++ " from " ++
                    transcript_type ++ ") generated with warnings: " ++
                    toString out.failed_speakers.length ++
                    " segments failed. These were replaced with silence."
                else
                  "Audio regeneration completed! Version " ++ toString version ++
                    " (" ++ lang_name ++ " from " ++ transcript_type ++
                    " transcript) is now available." },
            true⟩

/-- Hoisting a `Nat.max` fold accumulator. -/
theorem foldl_max_acc (g : AudioVersion → Nat) :
    ∀ (vs : List AudioVersion) (b : Nat),
      vs.foldl (fun m vi => Nat.max m (g vi)) b =
        Nat.max b (vs.foldl (fun m vi => Nat.max m (g vi)) 0) := by
  intro vs
  induction vs with
  | nil => intro b; simp
  | cons x xs ih =>
    intro b
    simp only [List.foldl_cons]
    rw [ih (Nat.max b (g x)), ih (Nat.max 0 (g x))]
    simp [Nat.zero_max, Nat.max_assoc]

/-- The version loop of `regenerate_audio` computes
`max 2 (fold of version+1)`. -/
theorem next_version_eq (vs : List AudioVersion) :
    next_version vs =
      Nat.max 2 (vs.foldl (fun m vi => Nat.max m (vi.version + 1)) 0) := by
  have hstep : ∀ (a : Nat) (vi : AudioVersion),
      (if a ≤ vi.version then vi.version + 1 else a) = Nat.max a (vi.version + 1) := by
    intro a vi
    simp only [Nat.max_def]
    split <;> split <;> omega
  have hfun : next_version vs = vs.foldl (fun m vi => Nat.max m (vi.version + 1)) 2 := by
    unfold next_version
    congr 1
    funext a vi
    exact hstep a vi
  rw [hfun, foldl_max_acc (fun vi => vi.version + 1) vs 2]

/-- Adding one to the accumulator commutes with the running-max fold. -/
theorem foldl_succ_version :
    ∀ (vs : List AudioVersion) (b : Nat),
      vs.foldl (fun m vi => Nat.max m (vi.version + 1)) (b + 1) =
        vs.foldl (fun m vi => Nat.max m vi.version) b + 1 := by
  intro vs
  induction vs with
  | nil => intro b; simp
  | cons x xs ih =>
    intro b
    simp only [List.foldl_cons]
    have hmax : Nat.max (b + 1) (x.version + 1) = Nat.max b x.version + 1 := by
      simp only [Nat.max_def]
      split <;> split <;> omega
    rw [hmax]
    exact ih (Nat.max b x.version)

/-- On a nonempty list the fold of `version+1` is the max version plus one. -/
theorem foldl_succ_max (vs : List AudioVersion) (x : AudioVersion) :
    (x :: vs).foldl (fun m vi => Nat.max m (vi.version + 1)) 0 =
      maxRecordedVersion (x :: vs) + 1 := by
  unfold maxRecordedVersion
  simp only [List.foldl_cons]
  have h1 : Nat.max 0 (x.version + 1) = x.version + 1 := by
    simp [Nat.max_def]
  have h2 : Nat.max 0 x.version = x.version := by
    simp [Nat.max_def]
  rw [h1, h2]
  exact foldl_succ_version vs x.version

/-- A version-suffixed regeneration path is never the version-1 path. -/
theorem regenFinalPath_ne_v1 (job_id lang : String) (v : Nat) :
    regenFinalPath job_id lang v ≠ v1AudioPath job_id lang := by
  intro h
  have hlen := congrArg String.length h
  simp only [regenFinalPath, v1AudioPath, String.length_append] at hlen
  have h2 : ("_v" : String).length = 2 := by decide
  rw [h2] at hlen
  omega
/-- A recorded version is at most the maximum recorded version. -/
theorem mem_le_maxRecordedVersion (vs : List AudioVersion) (vi : AudioVersion)
    (h : vi ∈ vs) : vi.version ≤ maxRecordedVersion vs := by
  induction vs with
  | nil => cases h
  | cons x xs ih =>
    have hx : maxRecordedVersion (x :: xs) =
        Nat.max (Nat.max 0 x.version) (maxRecordedVersion xs) := by
      unfold maxRecordedVersion
      simp only [List.foldl_cons]
      exact foldl_max_acc (fun vi => vi.version) xs (Nat.max 0 x.version)
    rcases List.mem_cons.mp h with h | h
    · subst h
      rw [hx]
      simp only [Nat.max_def]
      split <;> split <;> omega
    · have := ih h
      rw [hx]
      simp only [Nat.max_def]
      split <;> split <;> omega

/-- C8: a successful regeneration leaves the version-1 final audio path and
every previously recorded version entry untouched, writes only to the
version-suffixed path (distinct from the version-1 path), and appends exactly
one record whose version is 2 when no versions are recorded and the maximum
recorded version plus one otherwise. -/
theorem regenerate_audio_versioning (job : TranslationJob) (fx : RegenEffects)
    (out : RegenOutput) (transcript_path audio_language transcript_type : String)
    (hver : ∀ vi ∈ job.audio_versions, 1 ≤ vi.version)
    (htp : transcript_path ≠ "")
    (hte : fx.transcriptExists = true)
    (htc : strStrip fx.transcriptContent ≠ "")
    (hti : fx.ttsInit = .ok ())
    (hgr : fx.generateResult = .ok out)
    (hoe : fx.outputExists = true)
    (hos : 1000 ≤ fx.outputSize) :
    let v := next_version job.audio_versions
    let r := process_audio_regeneration fx v transcript_path audio_language
      transcript_type job
    r.ok = true ∧
    (job.audio_versions = [] → v = 2) ∧
    (job.audio_versions ≠ [] → v = maxRecordedVersion job.audio_versions + 1) ∧
    2 ≤ v ∧
    r.job.audio_versions = job.audio_versions ++
      [{ version := v, path := regenFinalPath job.job_id audio_language v
         transcript_source := transcript_type, audio_language := audio_language }] ∧
    r.job.final_target_audio_path = job.final_target_audio_path ∧
    regenFinalPath job.job_id audio_language v ≠ v1AudioPath job.job_id audio_language ∧
    r.job.status = job.status := by
  have hos' : ¬ (fx.outputSize < 1000) := by omega
  have hte' : ¬ (transcript_path = "" ∨ fx.transcriptExists = false) := by
    rw [hte]
    simp [htp]
  refine ⟨?_, ?_, ?_, ?_, ?_, ?_, regenFinalPath_ne_v1 _ _ _, ?_⟩
  · simp [process_audio_regeneration, hte', htc, hti, hgr, hoe, hos']
  · intro hempty
    rw [next_version_eq, hempty]
    simp
  · intro hne
    rcases hx : job.audio_versions with _ | ⟨x, xs⟩
    · exact absurd hx hne
    · rw [hx] at hver
      rw [next_version_eq, foldl_succ_max xs x]
      have h1 : 1 ≤ x.version := hver x (List.mem_cons_self x xs)
      have h2 : x.version ≤ maxRecordedVersion (x :: xs) :=
        mem_le_maxRecordedVersion _ x (List.mem_cons_self x xs)
      simp only [Nat.max_def]
      split <;> omega
  · rw [next_version_eq]
    simp only [Nat.max_def]
    split <;> omega
  · simp [process_audio_regeneration, hte', htc, hti, hgr, hoe, hos']
  · simp [process_audio_regeneration, hte', htc, hti, hgr, hoe, hos']
  · simp [process_audio_regeneration, hte', htc, hti, hgr, hoe, hos']

/-- A completed job with one recorded regeneration, used as concrete input. -/
def sampleRegenJob : TranslationJob :=
  { sampleFreshJob with
    status := .COMPLETED
    final_target_audio_path := some "/app/outputs/job1/full_audio_ja.mp3"
    clean_target_path := some "/app/outputs/job1/transcript_ja_clean.txt"
    audio_versions :=
      [{ version := 2, path := "/app/outputs/job1/full_audio_ja_v2.mp3"
         transcript_source := "target", audio_language := "ja" }] }

/-- Regeneration effects in which every check and call succeeds. -/
def sampleRegenFx : RegenEffects :=
  { transcriptExists := true
    transcriptContent := "Speaker A: こんにちは。"
    ttsInit := .ok ()
    generateResult := .ok { total_segments := 3, successful_segments := 3, failed_speakers := [] }
    outputExists := true
    outputSize := 5000 }

/-- Witness for C8: with version 2 recorded, the next regeneration appends
exactly version 3. -/
theorem regenerate_audio_versioning_witness :
    (∀ vi ∈ sampleRegenJob.audio_versions, 1 ≤ vi.version) ∧
    next_version sampleRegenJob.audio_versions = 3 ∧
    (process_audio_regeneration sampleRegenFx (next_version sampleRegenJob.audio_versions)
        "/app/outputs/job1/transcript_ja_clean.txt" "ja" "target" sampleRegenJob).job.audio_versions =
      sampleRegenJob.audio_versions ++
        [{ version := 3, path := regenFinalPath "job1" "ja" 3
           transcript_source := "target", audio_language := "ja" }] := by
  refine ⟨by decide, rfl, ?_⟩
  have h := (regenerate_audio_versioning sampleRegenJob sampleRegenFx
    { total_segments := 3, successful_segments := 3, failed_speakers := [] }
    "/app/outputs/job1/transcript_ja_clean.txt" "ja" "target"
    (by decide) (by decide) rfl (by decide) rfl rfl rfl (by decide)).2.2.2.2.1
  exact h

/-- C10: if the regeneration task fails at any of its checks or calls, the
job's version list, status, error message, progress and artifact paths are
unchanged; only the message is updated. -/
theorem process_audio_regeneration_failure_atomic (fx : RegenEffects)
    (version : Nat) (transcript_path audio_language transcript_type : String)
    (job : TranslationJob)
    (h : (process_audio_regeneration fx version transcript_path audio_language
      transcript_type job).ok = false) :
    let r := process_audio_regeneration fx version transcript_path audio_language
      transcript_type job
    r.job.audio_versions = job.audio_versions ∧
    r.job.status = job.status ∧
    r.job.error_message = job.error_message ∧
    r.job.progress = job.progress ∧
    r.job.final_target_audio_path = job.final_target_audio_path ∧
    r.job.clean_target_path = job.clean_target_path ∧
    r.job = { job with message := r.job.message } := by
  by_cases h1 : transcript_path = "" ∨ fx.transcriptExists = false
  · simp [process_audio_regeneration, regenFail, h1]
  · by_cases h2 : strStrip fx.transcriptContent = ""
    · simp [process_audio_regeneration, regenFail, h1, h2]
    · rcases hti : fx.ttsInit with e1 | u
      · simp [process_audio_regeneration, regenFail, h1, h2, hti]
      · rcases hgr : fx.generateResult with e2 | out
        · simp [process_audio_regeneration, regenFail, h1, h2, hti, hgr]
        · by_cases h3 : fx.outputExists = false
          · simp [process_audio_regeneration, regenFail, h1, h2, hti, hgr, h3]
          · by_cases h4 : fx.outputSize < 1000
            · simp [process_audio_regeneration, regenFail, h1, h2, hti, hgr, h3, h4]
            · exfalso
              simp [process_audio_regeneration, regenFail, h1, h2, hti, hgr, h3, h4] at h

/-- Regeneration effects whose transcript has disappeared. -/
def missingTranscriptFx : RegenEffects :=
  { transcriptExists := false
    transcriptContent := ""
    ttsInit := .ok ()
    generateResult := .ok { total_segments := 0, successful_segments := 0, failed_speakers := [] }
    outputExists := false
    outputSize := 0 }

/-- Witness for C10: a regeneration that fails its transcript check leaves
the version list unchanged. -/
theorem process_audio_regeneration_failure_atomic_witness :
    (process_audio_regeneration missingTranscriptFx 2
        "/app/outputs/job1/transcript_ja_clean.txt" "ja" "target" sampleRegenJob).ok = false ∧
    (process_audio_regeneration missingTranscriptFx 2
        "/app/outputs/job1/transcript_ja_clean.txt" "ja" "target" sampleRegenJob).job.audio_versions =
      sampleRegenJob.audio_versions :=
  ⟨rfl,
    (process_audio_regeneration_failure_atomic missingTranscriptFx 2
      "/app/outputs/job1/transcript_ja_clean.txt" "ja" "target" sampleRegenJob rfl).1⟩

/-! ## Translation service: speaker-aware chunk splitting

Embedding of `TranslationService` (`app/services/translation_service.py`):
`_is_speaker_line`, `_split_text_by_speakers`, `_split_long_block`,
`_normalize_speaker_labels`, `_add_speaker_spacing` and the per-chunk
translate-with-retry loop of `translate_to_japanese`. -/

/-- The speaker identifiers `["A", "B", "C", "D", "E"]`. -/
def speakerLetters : List Char := ['A', 'B', 'C', 'D', 'E']

/-- Matches `^Speaker [A-E]:` at the head of a line, returning the letter and
the text after the colon. -/
def speakerHeadSplit (l : List Char) : Option (Char × List Char) :=
  match l with
  | 'S' :: 'p' :: 'e' :: 'a' :: 'k' :: 'e' :: 'r' :: ' ' :: c :: ':' :: t =>
    if speakerLetters.contains c then some (c, t) else none
  | _ => none

/-- `"Speaker X"` (the merge loop's group 1, without the colon). -/
def speakerName (c : Char) : List Char :=
  ['S', 'p', 'e', 'a', 'k', 'e', 'r', ' ', c]

/-- `_is_speaker_line`: `re.match(r'^Speaker [A-E]:', line.strip())`. -/
def is_speaker_line (line : List Char) : Bool :=
  (speakerHeadSplit (pyStrip line)).isSome

/-- Python `str.splitlines()` restricted to `'\n'` separators (the only line
separator occurring in these texts): like `split('\n')` but without a final
empty piece when the text ends in a newline, and `[]` on empty input. -/
def pySplitlines (l : List Char) : List (List Char) :=
  if l = [] then []
  else if l.getLast? = some '\n' then (splitOnChar '\n' l).dropLast
  else splitOnChar '\n' l

/-- Python `' '.join(parts)`. -/
def joinSpaces (ls : List (List Char)) : List Char :=
  (ls.intersperse [' ']).flatten

/-- A sentence-ending character of the split pattern `(?<=[.?!])\s+`. -/
def isSentEnd (c : Char) : Bool := c = '.' || c = '?' || c = '!'

/-- `re.split(r'(?<=[.?!])\s+', content)`: cut at every whitespace run that
directly follows a sentence-ending character; the whitespace run is consumed
(the `skip` flag is true while inside the separating whitespace run). -/
def reSplitGo : List Char → List Char → Bool → List (List Char)
  | [], cur, _ => [cur]
  | c :: rest, cur, skip =>
    if skip then
      if isPySpace c then reSplitGo rest cur true
      else reSplitGo rest [c] false
    else if isPySpace c ∧ (∃ p, cur.getLast? = some p ∧ isSentEnd p) then
      cur :: reSplitGo rest [] true
    else reSplitGo rest (cur ++ [c]) false

/-- `re.split(r'(?<=[.?!])\s+', content)`. -/
def reSplitSentences (l : List Char) : List (List Char) :=
  reSplitGo l [] false
/-- Case-insensitive character comparison (`re.IGNORECASE`). -/
def ciEq (a b : Char) : Bool := a.toLower = b.toLower

/-- Match a literal pattern case-insensitively at the head of the input,
returning the remainder. -/
def ciPrefixRest : List Char → List Char → Option (List Char)
  | [], l => some l
  | _, [] => none
  | p :: ps, c :: cs => if ciEq c p then ciPrefixRest ps cs else none

theorem ciPrefixRest_length :
    ∀ (ps l r : List Char), ciPrefixRest ps l = some r → r.length ≤ l.length := by
  intro ps
  induction ps with
  | nil =>
    intro l r h
    simp only [ciPrefixRest, Option.some.injEq] at h
    subst h
    exact Nat.le_refl _
  | cons p ps ih =>
    intro l r h
    match l with
    | [] => simp [ciPrefixRest] at h
    | c :: cs =>
      simp only [ciPrefixRest] at h
      split at h
      · have := ih cs r h
        simp only [List.length_cons]
        omega
      · cases h

/-- One of the `patterns_to_fix` of `_normalize_speaker_labels`: a literal
prefix matched case-insensitively, a whitespace requirement (`\s*`, `\s+` or
no whitespace at all), and a final character matched case-insensitively. -/
structure LabelPat where
  pre : List Char
  needWs : Bool
  noWs : Bool
  last : Char

/-- Try to match a label pattern at the head of the input, returning the
remainder after the match (the greedy `\s*`/`\s+` consumes the whole
whitespace run because the following character is never whitespace). -/
def matchLabelAt (p : LabelPat) (l : List Char) : Option (List Char) :=
  match ciPrefixRest p.pre l with
  | none => none
  | some r1 =>
    let wsLen := (r1.takeWhile isPySpace).length
    if p.needWs ∧ wsLen = 0 then none
    else
      let r2 := if p.noWs then r1 else r1.dropWhile isPySpace
      match r2 with
      | [] => none
      | c :: rest => if ciEq c p.last then some rest else none

theorem matchLabelAt_length (p : LabelPat) (l r : List Char)
    (h : matchLabelAt p l = some r) : r.length < l.length := by
  unfold matchLabelAt at h
  match hp : ciPrefixRest p.pre l with
  | none => rw [hp] at h; cases h
  | some r1 =>
    rw [hp] at h
    have h1 : r1.length ≤ l.length := ciPrefixRest_length p.pre l r1 hp
    simp only at h
    split at h
    · cases h
    · have h2 : (if p.noWs then r1 else r1.dropWhile isPySpace).length ≤ r1.length := by
        split
        · exact Nat.le_refl _
        · exact (List.dropWhile_sublist (l := r1) (p := isPySpace)).length_le
      split at h
      · cases h
      · rename_i c rest heq
        split at h
        · simp only [Option.some.injEq] at h
          subst h
          rw [heq] at h2
          simp only [List.length_cons] at h2
          omega
        · cases h

/-- `re.sub` with a label pattern: leftmost, non-overlapping replacement,
continuing after each match.  Each step consumes at least one character
(`matchLabelAt_length`), so fuel equal to the input length never runs out;
fuel keeps the recursion structural. -/
def subLabelFuel (p : LabelPat) (repl : List Char) : Nat → List Char → List Char
  | 0, l => l
  | _ + 1, [] => []
  | fuel + 1, c :: rest =>
    match matchLabelAt p (c :: rest) with
    | some rem => repl ++ subLabelFuel p repl fuel rem
    | none => c :: subLabelFuel p repl fuel rest

/-- `re.sub` with a label pattern over the whole input. -/
def subLabelAll (p : LabelPat) (repl : List Char) (l : List Char) : List Char :=
  subLabelFuel p repl l.length l

/-- The `patterns_to_fix` list for one speaker letter (in source order:
`話者\s*X`, `スピーカー\s*X`, `Speaker\s*N`, `SpeakerX`, `Speaker\s+X`). -/
def labelPats (c : Char) : List LabelPat :=
  [ { pre := ['話', '者'], needWs := false, noWs := false, last := c }
  , { pre := ['ス', 'ピ', 'ー', 'カ', 'ー'], needWs := false, noWs := false, last := c }
  , { pre := "Speaker".data, needWs := false, noWs := false
      last := Char.ofNat (c.toNat - 'A'.toNat + '1'.toNat) }
  , { pre := "Speaker".data, needWs := false, noWs := true, last := c }
  , { pre := "Speaker".data, needWs := true, noWs := false, last := c } ]

/-- `_normalize_speaker_labels`: for each speaker letter apply each pattern's
substitution with replacement `"Speaker X:"`, in source order. -/
def normalize_speaker_labels (content : List Char) : List Char :=
  speakerLetters.foldl
    (fun acc c =>
      (labelPats c).foldl
        (fun acc2 p => subLabelAll p (speakerName c ++ [':']) acc2) acc)
    content

/-- `_add_speaker_spacing` of the translation service: drop blank lines and
insert two blank lines whenever the speaker changes. -/
def ts_add_speaker_spacing (content : List Char) : List Char :=
  joinLines (go (pySplitlines content) none)
where
  go : List (List Char) → Option Char → List (List Char)
    | [], _ => []
    | line :: rest, last =>
      let ls := pyStrip line
      if ls = [] then go rest last
      else
        match speakerHeadSplit ls with
        | some (c, _) =>
          if last ≠ none ∧ last ≠ some c then
            [] :: [] :: line :: go rest (some c)
          else line :: go rest (some c)
        | none => line :: go rest last
/-- The merge phase of `_split_text_by_speakers`: walk the stripped lines,
merging consecutive same-speaker content (joined by single spaces, dropping
empty content) into blocks `"Speaker X: …"`; content before any speaker line
is dropped. -/
def mergeSpeakerBlocks :
    List (List Char) → Option Char → List (List Char) → List (List Char) →
      List (List Char)
  | [], cur, curLines, acc =>
    match cur with
    | some c0 => if curLines ≠ [] then acc ++ [speakerName c0 ++ ':' :: ' ' :: joinSpaces curLines] else acc
    | none => acc
  | line :: rest, cur, curLines, acc =>
    let l := pyStrip line
    if l = [] then mergeSpeakerBlocks rest cur curLines acc
    else
      match speakerHeadSplit l with
      | some (c, t) =>
        let content := pyStrip t
        if cur = some c then
          mergeSpeakerBlocks rest cur
            (if content ≠ [] then curLines ++ [content] else curLines) acc
        else
          let acc' :=
            match cur with
            | some c0 =>
              if curLines ≠ [] then acc ++ [speakerName c0 ++ ':' :: ' ' :: joinSpaces curLines]
              else acc
            | none => acc
          mergeSpeakerBlocks rest (some c)
            (if content ≠ [] then [content] else []) acc'
      | none =>
        match cur with
        | some _ => mergeSpeakerBlocks rest cur (curLines ++ [l]) acc
        | none => mergeSpeakerBlocks rest cur curLines acc

/-- `_split_long_block`: extract the speaker label (`^(Speaker [A-E]:)` on
the stripped first line, defaulting to `"Speaker A:"`), split the joined
content at sentence boundaries, and greedily pack sentences, starting each
new chunk with the label. -/
def split_long_block (block_lines : List (List Char)) (max_chars : Nat) :
    List (List Char) :=
  match block_lines with
  | [] => []
  | first :: _ =>
    let speaker_label : List Char :=
      match speakerHeadSplit (pyStrip first) with
      | some (c, _) => speakerName c ++ [':']
      | none => "Speaker A:".data
    let content := joinLines block_lines
    let sentences := reSplitSentences content
    let packed := sentences.foldl
      (fun (p : List (List Char) × List Char) sentence =>
        if p.2.length + sentence.length > max_chars then
          (p.1 ++ [pyStrip p.2], speaker_label ++ ' ' :: sentence)
        else (p.1, p.2 ++ sentence))
      ([], speaker_label ++ [' '])
    if packed.2 ≠ [] then packed.1 ++ [pyStrip packed.2] else packed.1

/-- `_split_text_by_speakers`: prefix a missing speaker label on the first
line, merge consecutive same-speaker lines into blocks, and emit each block
whole when it fits in `chunk_width`, split at sentence boundaries otherwise.
Empty input raises (`lines[0]` on an empty list). -/
def split_text_by_speakers (chunk_width : Nat) (text : List Char) :
    Except String (List (List Char)) :=
  match pySplitlines text with
  | [] => .error "list index out of range"
  | l0 :: rest =>
    let l0' := if is_speaker_line l0 then l0 else "Speaker A: ".data ++ l0
    let merged_blocks := mergeSpeakerBlocks (l0' :: rest) none [] []
    .ok (merged_blocks.foldl
      (fun chunks block =>
        if block.length > chunk_width then
          chunks ++ split_long_block [block] chunk_width
        else chunks ++ [block])
      [])
theorem dropWhile_eq_self_of_length (p : Char → Bool) (l : List Char)
    (h : (l.dropWhile p).length = l.length) : l.dropWhile p = l :=
  (List.dropWhile_suffix p).eq_of_length h

theorem pyStrip_parts (l : List Char) (h : pyStrip l = l) :
    lstrip l = l ∧ rstrip l = l := by
  have h1 : (lstrip l).length ≤ l.length :=
    (List.dropWhile_sublist (l := l) (p := isPySpace)).length_le
  have h2 : (rstrip (lstrip l)).length ≤ (lstrip l).length := by
    unfold rstrip
    have := (List.dropWhile_sublist (l := (lstrip l).reverse) (p := isPySpace)).length_le
    simp only [List.length_reverse] at this ⊢
    omega
  have hl : (pyStrip l).length = l.length := by rw [h]
  unfold pyStrip at hl
  have hlen1 : (lstrip l).length = l.length := by omega
  have hstrip1 : lstrip l = l := dropWhile_eq_self_of_length _ _ hlen1
  refine ⟨hstrip1, ?_⟩
  have h' := h
  unfold pyStrip at h'
  rw [hstrip1] at h'
  exact h'

theorem rstrip_head_not_space (l : List Char) (h : rstrip l = l) (hne : l ≠ []) :
    ∃ y ys, l.reverse = y :: ys ∧ isPySpace y = false := by
  rcases hrev : l.reverse with _ | ⟨y, ys⟩
  · exact absurd (by simpa using congrArg List.reverse hrev) hne
  · refine ⟨y, ys, rfl, ?_⟩
    by_contra hy
    have hy' : isPySpace y = true := by
      cases hq : isPySpace y
      · exact absurd hq hy
      · rfl
    have hx : rstrip l = (ys.dropWhile isPySpace).reverse := by
      unfold rstrip
      rw [hrev, List.dropWhile_cons_of_pos hy']
    rw [h] at hx
    have hlen := congrArg List.length hx
    have hys : (ys.dropWhile isPySpace).length ≤ ys.length :=
      (List.dropWhile_sublist (l := ys) (p := isPySpace)).length_le
    have hl : l.length = ys.length + 1 := by
      have := congrArg List.length hrev
      simpa using this
    simp only [List.length_reverse] at hlen
    omega

/-- Appending to the left of a right-stripped nonempty list keeps it
right-stripped. -/
theorem rstrip_append (a b : List Char) (hb : rstrip b = b) (hne : b ≠ []) :
    rstrip (a ++ b) = a ++ b := by
  obtain ⟨y, ys, hrev, hy⟩ := rstrip_head_not_space b hb hne
  unfold rstrip
  rw [List.reverse_append, hrev, List.cons_append,
    List.dropWhile_cons_of_neg (by rw [hy]; simp), ← List.cons_append, ← hrev,
    ← List.reverse_append, List.reverse_reverse]

theorem rstrip_append_singleton (xs : List Char) (x : Char) :
    rstrip (xs ++ [x]) = if isPySpace x then rstrip xs else xs ++ [x] := by
  unfold rstrip
  rw [List.reverse_concat]
  cases hx : isPySpace x
  · rw [List.dropWhile_cons_of_neg (by rw [hx]; simp)]
    simp
  · rw [List.dropWhile_cons_of_pos hx]
    simp

theorem joinLines_singleton (l : List Char) : joinLines [l] = l := by
  simp [joinLines]

/-- C7 (amended): a speaker block that is a single sentence and, together
with its 11-character label-plus-space prefix, exceeds the width is emitted
by `_split_long_block` as two chunks: first the bare speaker label, then one
oversized chunk made of the label, a space and the whole original block — so
the label is duplicated and the sentence is never split mid-way. -/
theorem split_long_block_single_sentence (block t : List Char) (c : Char)
    (W : Nat)
    (hhead : speakerHeadSplit block = some (c, t))
    (hstrip : pyStrip block = block)
    (hsent : reSplitSentences block = [block])
    (hlen : 11 + block.length > W) :
    split_long_block [block] W =
      [speakerName c ++ [':'], speakerName c ++ ':' :: ' ' :: block] := by
  have hne : block ≠ [] := by
    intro h
    rw [h] at hhead
    simp [speakerHeadSplit] at hhead
  obtain ⟨hl, hr⟩ := pyStrip_parts block hstrip
  have hlab : speakerName c ++ [':'] ++ [' '] =
      'S' :: ('p' :: 'e' :: 'a' :: 'k' :: 'e' :: 'r' :: ' ' :: c :: ':' :: [' ']) := by
    simp [speakerName]
  have hstrip1 : pyStrip (speakerName c ++ [':'] ++ [' ']) = speakerName c ++ [':'] := by
    unfold pyStrip
    have hlstrip : lstrip (speakerName c ++ [':'] ++ [' ']) =
        speakerName c ++ [':'] ++ [' '] := by
      rw [hlab]
      unfold lstrip
      rw [List.dropWhile_cons_of_neg (by simp [isPySpace])]
    rw [hlstrip, rstrip_append_singleton]
    simp only [isPySpace]
    rw [if_pos (by simp), show speakerName c ++ [':'] =
      (speakerName c) ++ [':'] from rfl, rstrip_append_singleton]
    rw [if_neg (by simp [isPySpace])]
  have hstrip2 : pyStrip (speakerName c ++ [':'] ++ ' ' :: block) =
      speakerName c ++ [':'] ++ ' ' :: block := by
    unfold pyStrip
    have hlstrip : lstrip (speakerName c ++ [':'] ++ ' ' :: block) =
        speakerName c ++ [':'] ++ ' ' :: block := by
      unfold lstrip
      rw [show speakerName c ++ [':'] ++ ' ' :: block =
        'S' :: ('p' :: 'e' :: 'a' :: 'k' :: 'e' :: 'r' :: ' ' :: c :: ':' :: ' ' :: block) by
          simp [speakerName]]
      rw [List.dropWhile_cons_of_neg (by simp [isPySpace])]
    rw [hlstrip]
    rw [show speakerName c ++ [':'] ++ ' ' :: block =
      (speakerName c ++ [':'] ++ [' ']) ++ block by simp]
    rw [rstrip_append _ block hr hne]
  have hcond : ((speakerName c ++ [':']) ++ [' ']).length + block.length > W := by
    simp only [speakerName, List.length_append, List.length_cons, List.length_nil]
    omega
  simp only [split_long_block, hstrip, hhead, joinLines_singleton, hsent,
    List.foldl_cons, List.foldl_nil]
  rw [if_pos hcond, if_pos (by simp), hstrip1, hstrip2]
  simp
/-- C7 counterexample: a single-sentence speaker block longer than the width
is emitted as TWO chunks — a bare label chunk and a chunk with the speaker
label duplicated — not as one intact oversized chunk. -/
theorem split_text_single_long_sentence_counterexample :
    reSplitSentences "Speaker A: aaaaaaaaaaaaaaaaaaaaaaaaa.".data =
      ["Speaker A: aaaaaaaaaaaaaaaaaaaaaaaaa.".data] ∧
    ("Speaker A: aaaaaaaaaaaaaaaaaaaaaaaaa.".data).length > 20 ∧
    split_text_by_speakers 20 "Speaker A: aaaaaaaaaaaaaaaaaaaaaaaaa.".data =
      .ok ["Speaker A:".data,
        "Speaker A: Speaker A: aaaaaaaaaaaaaaaaaaaaaaaaa.".data] := by
  refine ⟨by decide, by decide, rfl⟩

/-- Witness for the amended C7 at a concrete oversized single-sentence
block. -/
theorem split_long_block_single_sentence_witness :
    speakerHeadSplit "Speaker B: bbbb.".data = some ('B', " bbbb.".data) ∧
    pyStrip "Speaker B: bbbb.".data = "Speaker B: bbbb.".data ∧
    reSplitSentences "Speaker B: bbbb.".data = ["Speaker B: bbbb.".data] ∧
    11 + ("Speaker B: bbbb.".data).length > 10 ∧
    split_long_block ["Speaker B: bbbb.".data] 10 =
      ["Speaker B:".data, "Speaker B: Speaker B: bbbb.".data] := by
  refine ⟨by decide, by decide, by decide, by decide, ?_⟩
  have h := split_long_block_single_sentence "Speaker B: bbbb.".data
    " bbbb.".data 'B' 10 (by decide) (by decide) (by decide) (by decide)
  rw [h]
  decide
/-! ## Translation chunk loop

Embedding of the per-chunk translate-with-retry loop of
`translate_to_japanese`.  The filesystem is an association list from path to
file content; the external translation call is an outcome parameter
`transform : chunk index → attempt number → Except String String` returning
the raw response text or the exception text.  The loop records every
transform call it makes as `(chunk index, attempt)`. -/

/-- Files on disk: path to content. -/
abbrev FileMap := List (String × String)

/-- `os.path.exists`. -/
def fmExists (fm : FileMap) (p : String) : Bool :=
  fm.any (fun e => e.1 = p)

/-- `open(p, 'w').write(c)`: overwrite or create. -/
def fmWrite (fm : FileMap) (p c : String) : FileMap :=
  if fmExists fm p then
    fm.map (fun e => if e.1 = p then (p, c) else e)
  else fm ++ [(p, c)]

/-- Read a file's content. -/
def fmGet (fm : FileMap) (p : String) : Option String :=
  (fm.find? (fun e => e.1 = p)).map (fun e => e.2)

/-- Python `f"{n:03}"`. -/
def pad3 (n : Nat) : String :=
  ⟨List.replicate (3 - (toString n).length) '0'⟩ ++ toString n

/-- The environment-derived configuration of `TranslationService` (defaults
`TRANSLATION_CHUNK_WIDTH=3000`, `TRANSLATION_MAX_RETRIES=4`,
`ENABLE_TAG_NORMALIZATION=true`, `OPENAI_MODEL_NAME=gpt-4`,
`OPENAI_TEMPERATURE=0.3`). -/
structure TranslationConfig where
  chunk_width : Nat
  max_retries : Nat
  enable_tag_normalization : Bool
  model_name : String
  temperature : String

/-- The default configuration. -/
def defaultTranslationConfig : TranslationConfig :=
  { chunk_width := 3000, max_retries := 4, enable_tag_normalization := true
    model_name := "gpt-4", temperature := "0.3" }

/-- `chunks_dir/chunk_<idx:03>.txt`. -/
def chunkFileName (chunks_dir : String) (idx : Nat) : String :=
  chunks_dir ++ "/chunk_" ++ pad3 idx ++ ".txt"

/-- `chunks_dir/chunk_<idx:03>_ERROR.txt`. -/
def chunkErrorFileName (chunks_dir : String) (idx : Nat) : String :=
  chunks_dir ++ "/chunk_" ++ pad3 idx ++ "_ERROR.txt"

/-- The content of a sentinel error file. -/
def chunkErrorBody (cfg : TranslationConfig) (chunk : List Char) (e : String) :
    String :=
  "Translation failed after " ++ toString cfg.max_retries ++ " attempts\n" ++
    "Last error: " ++ e ++ "\n" ++
    "Chunk length: " ++ toString chunk.length ++ " characters\n" ++
    "Model: " ++ cfg.model_name ++ "\n" ++
    "Temperature: " ++ cfg.temperature ++ "\n" ++
    "\nOriginal text:\n" ++ String.mk chunk

/-- The retry loop for one chunk (`for attempt in range(1, max_retries+1)`).
`rem` counts the attempts still allowed; `none` means the loop body never ran
(possible only with zero retries configured).  A response whose stripped
content is empty raises `ValueError("Empty response from OpenAI")` inside the
`try`, so it retries like any other failure.  Returns the final stripped
content or last error, with the list of calls made. -/
def chunkAttempts (transform : Nat → Nat → Except String String) (idx : Nat) :
    Nat → Nat → Option (Except String String) × List (Nat × Nat)
  | _, 0 => (none, [])
  | attempt, rem + 1 =>
    match transform idx attempt with
    | .ok raw =>
      let content := strStrip raw
      if content = "" then
        if rem = 0 then (some (.error "Empty response from OpenAI"), [(idx, attempt)])
        else
          let r := chunkAttempts transform idx (attempt + 1) rem
          (r.1, (idx, attempt) :: r.2)
      else (some (.ok content), [(idx, attempt)])
    | .error e =>
      if rem = 0 then (some (.error e), [(idx, attempt)])
      else
        let r := chunkAttempts transform idx (attempt + 1) rem
        (r.1, (idx, attempt) :: r.2)

/-- The per-chunk loop of `translate_to_japanese`: skip a chunk whose
success file exists, otherwise run the retry loop and write the success file
(content normalised and speaker-spaced) or the sentinel error file. -/
def translateChunksLoop (cfg : TranslationConfig)
    (transform : Nat → Nat → Except String String) (chunks_dir : String) :
    List (List Char) → Nat → FileMap → FileMap × List (Nat × Nat)
  | [], _, fm => (fm, [])
  | chunk :: rest, idx, fm =>
    if fmExists fm (chunkFileName chunks_dir idx) then
      translateChunksLoop cfg transform chunks_dir rest (idx + 1) fm
    else
      match chunkAttempts transform idx 1 cfg.max_retries with
      | (none, calls) =>
        let r := translateChunksLoop cfg transform chunks_dir rest (idx + 1) fm
        (r.1, calls ++ r.2)
      | (some (.ok content), calls) =>
        let processed :=
          if cfg.enable_tag_normalization then
            ts_add_speaker_spacing (normalize_speaker_labels content.data)
          else ts_add_speaker_spacing content.data
        let fm1 := fmWrite fm (chunkFileName chunks_dir idx) (String.mk processed)
        let r := translateChunksLoop cfg transform chunks_dir rest (idx + 1) fm1
        (r.1, calls ++ r.2)
      | (some (.error e), calls) =>
        let fm1 := fmWrite fm (chunkErrorFileName chunks_dir idx)
          (chunkErrorBody cfg chunk e)
        let r := translateChunksLoop cfg transform chunks_dir rest (idx + 1) fm1
        (r.1, calls ++ r.2)

/-- Embedding of `translate_to_japanese`: read the source transcript (absent
file raises), split it into speaker-aware chunks, run the per-chunk loop,
and return the chunks directory; per-chunk failures never raise. -/
def translate_to_japanese (cfg : TranslationConfig)
    (transform : Nat → Nat → Except String String)
    (inputContent : Option String) (chunks_dir : String) (fm : FileMap) :
    Except String (String × FileMap × List (Nat × Nat)) :=
  match inputContent with
  | none => .error "Translation failed: input file not found"
  | some text =>
    match split_text_by_speakers cfg.chunk_width text.data with
    | .error e => .error ("Translation failed: " ++ e)
    | .ok chunks =>
      let r := translateChunksLoop cfg transform chunks_dir chunks 1 fm
      .ok (chunks_dir, r.1, r.2)
theorem fmExists_fmWrite (fm : FileMap) (p q c : String)
    (h : fmExists fm p = true) : fmExists (fmWrite fm q c) p = true := by
  unfold fmWrite
  split
  · unfold fmExists at h ⊢
    rw [List.any_map]
    obtain ⟨e, he, hpe⟩ := List.any_eq_true.mp h
    refine List.any_eq_true.mpr ⟨e, he, ?_⟩
    simp only [Function.comp_apply]
    split
    · rename_i heq
      simp only [decide_eq_true_eq] at hpe ⊢
      rw [← heq, hpe]
    · exact hpe
  · unfold fmExists at h ⊢
    rw [List.any_append, h]
    rfl

theorem chunkAttempts_calls (transform : Nat → Nat → Except String String)
    (idx : Nat) :
    ∀ rem attempt, ∀ pr ∈ (chunkAttempts transform idx attempt rem).2,
      pr.1 = idx := by
  intro rem
  induction rem with
  | zero =>
    intro attempt pr hpr
    simp [chunkAttempts] at hpr
  | succ r ih =>
    intro attempt pr hpr
    unfold chunkAttempts at hpr
    rcases htr : transform idx attempt with e | raw <;> simp only [htr] at hpr
    · split at hpr
      · simp at hpr
        rw [hpr]
      · simp at hpr
        rcases hpr with hpr | hpr
        · rw [hpr]
        · exact ih (attempt + 1) pr hpr
    · split at hpr
      · split at hpr
        · simp at hpr
          rw [hpr]
        · simp at hpr
          rcases hpr with hpr | hpr
          · rw [hpr]
          · exact ih (attempt + 1) pr hpr
      · simp at hpr
        rw [hpr]

theorem translateChunksLoop_all_present (cfg : TranslationConfig)
    (transform : Nat → Nat → Except String String) (chunks_dir : String) :
    ∀ (chunks : List (List Char)) (start : Nat) (fm : FileMap),
      (∀ i, start ≤ i → i < start + chunks.length →
        fmExists fm (chunkFileName chunks_dir i) = true) →
      translateChunksLoop cfg transform chunks_dir chunks start fm = (fm, []) := by
  intro chunks
  induction chunks with
  | nil => intro start fm _; rfl
  | cons chunk rest ih =>
    intro start fm h
    have hstart : fmExists fm (chunkFileName chunks_dir start) = true := by
      refine h start (Nat.le_refl _) ?_
      simp only [List.length_cons]
      omega
    unfold translateChunksLoop
    rw [hstart]
    simp only [if_true]
    refine ih (start + 1) fm ?_
    intro i hi1 hi2
    refine h i (by omega) ?_
    simp only [List.length_cons]
    omega

theorem translateChunksLoop_no_call_for_present (cfg : TranslationConfig)
    (transform : Nat → Nat → Except String String) (chunks_dir : String)
    (idx : Nat) :
    ∀ (chunks : List (List Char)) (start : Nat) (fm : FileMap),
      fmExists fm (chunkFileName chunks_dir idx) = true →
      ∀ pr ∈ (translateChunksLoop cfg transform chunks_dir chunks start fm).2,
        pr.1 ≠ idx := by
  intro chunks
  induction chunks with
  | nil =>
    intro start fm _ pr hpr
    simp [translateChunksLoop] at hpr
  | cons chunk rest ih =>
    intro start fm hidx pr hpr
    unfold translateChunksLoop at hpr
    by_cases hsk : fmExists fm (chunkFileName chunks_dir start) = true
    · rw [hsk] at hpr
      simp only [if_true] at hpr
      exact ih (start + 1) fm hidx pr hpr
    · have hne : start ≠ idx := by
        intro h
        rw [h] at hsk
        exact hsk hidx
      rw [Bool.not_eq_true] at hsk
      rw [hsk] at hpr
      simp only [Bool.false_eq_true, if_false] at hpr
      rcases hca : chunkAttempts transform start 1 cfg.max_retries with ⟨res, calls⟩
      have hcalls : ∀ q ∈ calls, q.1 = start := by
        intro q hq
        have := chunkAttempts_calls transform start cfg.max_retries 1 q
        rw [hca] at this
        exact this hq
      rw [hca] at hpr
      rcases res with _ | res
      · simp only [List.mem_append] at hpr
        rcases hpr with hpr | hpr
        · rw [hcalls pr hpr]; exact hne
        · exact ih (start + 1) fm hidx pr hpr
      · rcases res with e | content
        · simp only [List.mem_append] at hpr
          rcases hpr with hpr | hpr
          · rw [hcalls pr hpr]; exact hne
          · exact ih (start + 1) _ (fmExists_fmWrite fm _ _ _ hidx) pr hpr
        · simp only [List.mem_append] at hpr
          rcases hpr with hpr | hpr
          · rw [hcalls pr hpr]; exact hne
          · exact ih (start + 1) _ (fmExists_fmWrite fm _ _ _ hidx) pr hpr
/-- A configuration with a single translation attempt per chunk. -/
def oneRetryConfig : TranslationConfig :=
  { defaultTranslationConfig with max_retries := 1 }

/-- A chunk directory holding only the sentinel error file of chunk 1. -/
def errOnlyFm : FileMap :=
  [("chunks/chunk_001_ERROR.txt", "old sentinel")]

/-- C4 counterexample: a chunk whose sentinel error file (but not success
file) exists is NOT treated as already processed — re-running the step makes
a transform call for it and rewrites its sentinel file. -/
theorem chunk_error_sentinel_not_skipped_counterexample :
    fmExists errOnlyFm (chunkErrorFileName "chunks" 1) = true ∧
    translate_to_japanese oneRetryConfig (fun _ _ => .error "boom")
        (some "Speaker A: Hello.") "chunks" errOnlyFm =
      .ok ("chunks",
        [("chunks/chunk_001_ERROR.txt",
          "Translation failed after 1 attempts\nLast error: boom\nChunk length: 17 characters\nModel: gpt-4\nTemperature: 0.3\n\nOriginal text:\nSpeaker A: Hello.")],
        [(1, 1)]) :=
  ⟨by decide, rfl⟩

/-- C4 (amended): only the success file `chunk_<N>.txt` marks a chunk as
already processed: when every chunk's success file exists, a re-run of the
translation loop makes no transform call and leaves the files unchanged, and
no transform call is ever made for a chunk whose success file exists. -/
theorem translate_success_file_skip (cfg : TranslationConfig)
    (transform : Nat → Nat → Except String String) (chunks_dir : String)
    (chunks : List (List Char)) (start : Nat) (fm : FileMap) (idx : Nat) :
    ((∀ i, start ≤ i → i < start + chunks.length →
        fmExists fm (chunkFileName chunks_dir i) = true) →
      translateChunksLoop cfg transform chunks_dir chunks start fm = (fm, [])) ∧
    (fmExists fm (chunkFileName chunks_dir idx) = true →
      ∀ pr ∈ (translateChunksLoop cfg transform chunks_dir chunks start fm).2,
        pr.1 ≠ idx) :=
  ⟨translateChunksLoop_all_present cfg transform chunks_dir chunks start fm,
    fun h => translateChunksLoop_no_call_for_present cfg transform chunks_dir
      idx chunks start fm h⟩

/-- A chunk directory holding the success file of chunk 1. -/
def successFm : FileMap :=
  [("chunks/chunk_001.txt", "Speaker A: こんにちは。")]

/-- Witness for the amended C4: with the one chunk's success file on disk,
a re-run makes no transform call and changes nothing. -/
theorem translate_success_file_skip_witness :
    (∀ i, 1 ≤ i → i < 1 + [(" ljud".data)].length →
      fmExists successFm (chunkFileName "chunks" i) = true) ∧
    translateChunksLoop defaultTranslationConfig (fun _ _ => .error "boom")
      "chunks" [(" ljud".data)] 1 successFm = (successFm, []) := by
  refine ⟨?_, ?_⟩
  · intro i h1 h2
    simp only [List.length_singleton] at h2
    have hi : i = 1 := by omega
    rw [hi]
    decide
  · refine (translate_success_file_skip defaultTranslationConfig
      (fun _ _ => .error "boom") "chunks" [(" ljud".data)] 1 successFm 1).1 ?_
    intro i h1 h2
    simp only [List.length_singleton] at h2
    have hi : i = 1 := by omega
    rw [hi]
    decide
/-! ## Speech synthesis

Embedding of `TTSService` (`app/services/tts_service.py`): the dialogue
parser `_parse_dialogue_segments`, the pipeline loop `generate_audio`, and
the regeneration loop `generate_audio_with_custom_voices`.  Synthesis
outcomes come from a parameter `synth : segment index → Except String
String` (the opaque audio bytes or the exception text); the silence clip
written by `_create_silence_placeholder` is the opaque content
`silenceContent`; `_merge_audio_files` is embedded as joining the segment
paths, opaquely standing for pydub concatenation. -/

/-- Python `f"{n:04d}"`. -/
def pad4 (n : Nat) : String :=
  ⟨List.replicate (4 - (toString n).length) '0'⟩ ++ toString n

/-- The placeholder content of a silence clip. -/
def silenceContent : String := "SILENCE"

/-- `_parse_dialogue_segments`: walk `content.split('\n')`, starting a new
segment at every `Speaker [A-E]:` line and appending non-empty continuation
lines; a segment is kept when its space-joined text is non-empty. -/
def parseSegmentsGo :
    List (List Char) → Option Char → List (List Char) →
      List (Char × List Char) → List (Char × List Char)
  | [], cur, parts, acc =>
    (match cur with
     | some c0 =>
       if parts ≠ [] then
         (if pyStrip (joinSpaces parts) ≠ [] then
            acc ++ [(c0, pyStrip (joinSpaces parts))]
          else acc)
       else acc
     | none => acc)
  | line :: rest, cur, parts, acc =>
    let l := pyStrip line
    match speakerHeadSplit l with
    | some (c, t) =>
      let acc' :=
        (match cur with
         | some c0 =>
           if parts ≠ [] then
             (if pyStrip (joinSpaces parts) ≠ [] then
                acc ++ [(c0, pyStrip (joinSpaces parts))]
              else acc)
           else acc
         | none => acc)
      let first := pyStrip (t.dropWhile isPySpace)
      parseSegmentsGo rest (some c) (if first ≠ [] then [first] else []) acc'
    | none =>
      if l ≠ [] ∧ cur.isSome then parseSegmentsGo rest cur (parts ++ [l]) acc
      else parseSegmentsGo rest cur parts acc

/-- `_parse_dialogue_segments` on file content. -/
def parse_dialogue_segments (content : List Char) : List (Char × List Char) :=
  parseSegmentsGo (splitOnChar '\n' content) none [] []

/-- The per-segment output path
`output_dir/segment_<i:04d>_Speaker_<X>.mp3`. -/
def segmentFileName (output_dir : String) (i : Nat) (c : Char) : String :=
  output_dir ++ "/segment_" ++ pad4 i ++ "_Speaker_" ++ String.singleton c ++ ".mp3"

/-- The segment loop of `generate_audio`: skip empty-text segments, reuse an
existing segment file (resume), otherwise synthesize; a failed synthesis is
replaced by a silence placeholder and the loop continues. -/
def generateAudioLoop (synth : Nat → Except String String)
    (output_dir : String) :
    List (Char × List Char) → Nat → FileMap → List String →
      FileMap × List String
  | [], _, fm, audio => (fm, audio)
  | (c, text) :: rest, i, fm, audio =>
    if pyStrip text = [] then generateAudioLoop synth output_dir rest (i + 1) fm audio
    else
      if fmExists fm (segmentFileName output_dir i c) then
        generateAudioLoop synth output_dir rest (i + 1) fm
          (audio ++ [segmentFileName output_dir i c])
      else
        match synth i with
        | .ok bytes =>
          generateAudioLoop synth output_dir rest (i + 1)
            (fmWrite fm (segmentFileName output_dir i c) bytes)
            (audio ++ [segmentFileName output_dir i c])
        | .error _ =>
          generateAudioLoop synth output_dir rest (i + 1)
            (fmWrite fm (segmentFileName output_dir i c) silenceContent)
            (audio ++ [segmentFileName output_dir i c])

/-- Embedding of `generate_audio` (the pipeline's audio step): parse, run
the segment loop, and merge; it raises only when the input file is missing
or when not a single (non-empty) segment produced an audio file. -/
def generate_audio (synth : Nat → Except String String)
    (inputContent : Option String) (output_dir merged_file : String)
    (fm : FileMap) : Except String (String × FileMap) :=
  match inputContent with
  | none => .error "Audio generation failed: input file not found"
  | some text =>
    let segments := parse_dialogue_segments text.data
    let r := generateAudioLoop synth output_dir segments 1 fm []
    if r.2 ≠ [] then
      .ok (merged_file, fmWrite r.1 merged_file (String.intercalate "+" r.2))
    else .error "Audio generation failed: No audio files were generated"

/-- The segment loop of `generate_audio_with_custom_voices`: no resume skip;
a failed synthesis records the speaker and error and writes a silence
placeholder. -/
def generateCustomLoop (synth : Nat → Except String String)
    (output_dir : String) :
    List (Char × List Char) → Nat → FileMap → List String →
      List (Char × String) → FileMap × List String × List (Char × String)
  | [], _, fm, audio, failed => (fm, audio, failed)
  | (c, text) :: rest, i, fm, audio, failed =>
    if pyStrip text = [] then
      generateCustomLoop synth output_dir rest (i + 1) fm audio failed
    else
      match synth i with
      | .ok bytes =>
        generateCustomLoop synth output_dir rest (i + 1)
          (fmWrite fm (segmentFileName output_dir i c) bytes)
          (audio ++ [segmentFileName output_dir i c]) failed
      | .error e =>
        generateCustomLoop synth output_dir rest (i + 1)
          (fmWrite fm (segmentFileName output_dir i c) silenceContent)
          (audio ++ [segmentFileName output_dir i c]) (failed ++ [(c, e)])

/-- Embedding of `generate_audio_with_custom_voices`: parse, raise when no
segments were found, run the loop, and raise when every segment failed
(`successful_count == 0 and len(segments) > 0`); otherwise merge and return
the output path with the total and successful counts. -/
def generate_audio_with_custom_voices (synth : Nat → Except String String)
    (inputContent : Option String) (output_dir output_file : String)
    (fm : FileMap) : Except String (String × FileMap × Nat × Nat) :=
  match inputContent with
  | none => .error "Custom audio generation failed: input file not found"
  | some text =>
    let segments := parse_dialogue_segments text.data
    if segments.length = 0 then
      .error "Custom audio generation failed: No dialogue segments found in transcript"
    else
      let r := generateCustomLoop synth output_dir segments 1 fm [] []
      let successful := segments.length - r.2.2.length
      if successful = 0 ∧ segments.length > 0 then
        .error ("Custom audio generation failed: All " ++
          toString segments.length ++ " segments failed to generate. Errors: " ++
          String.intercalate "; "
            ((r.2.2.take 3).map
              (fun pr => "Speaker " ++ String.singleton pr.1 ++ ": " ++ pr.2)))
      else if r.2.1 ≠ [] then
        .ok (output_file,
          fmWrite r.1 output_file (String.intercalate "+" r.2.1),
          segments.length, successful)
      else .error "Custom audio generation failed: No audio files were generated"
theorem generateAudioLoop_length (synth : Nat → Except String String)
    (output_dir : String) :
    ∀ (segs : List (Char × List Char)) (i : Nat) (fm : FileMap)
      (audio : List String),
      (∀ s ∈ segs, pyStrip s.2 ≠ []) →
      (generateAudioLoop synth output_dir segs i fm audio).2.length =
        audio.length + segs.length := by
  intro segs
  induction segs with
  | nil => intro i fm audio _; simp [generateAudioLoop]
  | cons s rest ih =>
    intro i fm audio h
    rcases s with ⟨c, text⟩
    have ht : pyStrip text ≠ [] := h (c, text) (List.mem_cons_self _ _)
    unfold generateAudioLoop
    rw [if_neg ht]
    have hrest : ∀ s ∈ rest, pyStrip s.2 ≠ [] :=
      fun s hs => h s (List.mem_cons_of_mem _ hs)
    split
    · rw [ih (i + 1) fm (audio ++ [segmentFileName output_dir i c]) hrest]
      simp only [List.length_append, List.length_cons, List.length_singleton,
        List.length_nil]
      omega
    · rcases hs : synth i with e | bytes <;> simp only [hs]
      · rw [ih (i + 1) _ (audio ++ [segmentFileName output_dir i c]) hrest]
        simp only [List.length_append, List.length_cons, List.length_singleton,
          List.length_nil]
        omega
      · rw [ih (i + 1) _ (audio ++ [segmentFileName output_dir i c]) hrest]
        simp only [List.length_append, List.length_cons, List.length_singleton,
          List.length_nil]
        omega

theorem generateCustomLoop_all_fail (synth : Nat → Except String String)
    (output_dir : String) (hfail : ∀ j, ∃ e, synth j = .error e) :
    ∀ (segs : List (Char × List Char)) (i : Nat) (fm : FileMap)
      (audio : List String) (failed : List (Char × String)),
      (∀ s ∈ segs, pyStrip s.2 ≠ []) →
      (generateCustomLoop synth output_dir segs i fm audio failed).2.2.length =
        failed.length + segs.length := by
  intro segs
  induction segs with
  | nil => intro i fm audio failed _; simp [generateCustomLoop]
  | cons s rest ih =>
    intro i fm audio failed h
    rcases s with ⟨c, text⟩
    have ht : pyStrip text ≠ [] := h (c, text) (List.mem_cons_self _ _)
    have hrest : ∀ s ∈ rest, pyStrip s.2 ≠ [] :=
      fun s hs => h s (List.mem_cons_of_mem _ hs)
    obtain ⟨e, he⟩ := hfail i
    unfold generateCustomLoop
    rw [if_neg ht, he]
    simp only
    rw [ih (i + 1) _ _ (failed ++ [(c, e)]) hrest]
    simp only [List.length_append, List.length_cons, List.length_singleton,
      List.length_nil]
    omega

/-- C3 (amended): per-unit failures never make the owning pipeline step
raise — the translation step returns normally whenever its input splits into
chunks, whatever the per-chunk outcomes (failed chunks become sentinel error
files), and the pipeline's `generate_audio` returns normally even when every
segment's synthesis fails (each becomes a silence placeholder); the
all-units-failed escalation exists only in the custom-voice regeneration
path `generate_audio_with_custom_voices`, which raises when every segment
fails. -/
theorem all_units_failed_step_behaviour :
    (∀ (cfg : TranslationConfig)
        (transform : Nat → Nat → Except String String) (text : String)
        (chunks_dir : String) (fm : FileMap) (chunks : List (List Char)),
      split_text_by_speakers cfg.chunk_width text.data = .ok chunks →
      (translate_to_japanese cfg transform (some text) chunks_dir fm).isOk = true) ∧
    (∀ (synth : Nat → Except String String) (text : String)
        (output_dir merged_file : String) (fm : FileMap),
      parse_dialogue_segments text.data ≠ [] →
      (∀ s ∈ parse_dialogue_segments text.data, pyStrip s.2 ≠ []) →
      (generate_audio synth (some text) output_dir merged_file fm).isOk = true) ∧
    (∀ (synth : Nat → Except String String) (text : String)
        (output_dir output_file : String) (fm : FileMap),
      parse_dialogue_segments text.data ≠ [] →
      (∀ s ∈ parse_dialogue_segments text.data, pyStrip s.2 ≠ []) →
      (∀ j, ∃ e, synth j = .error e) →
      ∃ msg, generate_audio_with_custom_voices synth (some text) output_dir
        output_file fm = .error msg) := by
  refine ⟨?_, ?_, ?_⟩
  · intro cfg transform text chunks_dir fm chunks hsplit
    dsimp only [translate_to_japanese]
    rw [hsplit]
    rfl
  · intro synth text output_dir merged_file fm hne htexts
    dsimp only [generate_audio]
    have hlen := generateAudioLoop_length synth output_dir
      (parse_dialogue_segments text.data) 1 fm [] htexts
    have hpos : 0 < (parse_dialogue_segments text.data).length :=
      List.length_pos.mpr hne
    rw [if_pos ?hpos]
    · rfl
    case hpos =>
      intro hcon
      have := congrArg List.length hcon
      simp only [List.length_nil] at this
      omega
  · intro synth text output_dir output_file fm hne htexts hfail
    dsimp only [generate_audio_with_custom_voices]
    have hpos : 0 < (parse_dialogue_segments text.data).length :=
      List.length_pos.mpr hne
    rw [if_neg (by omega)]
    have hflen := generateCustomLoop_all_fail synth output_dir hfail
      (parse_dialogue_segments text.data) 1 fm [] [] htexts
    rw [if_pos ?hcond]
    · exact ⟨_, rfl⟩
    case hcond =>
      constructor
      · rw [hflen]
        simp
      · exact hpos
/-- C3 counterexample: with every chunk failing permanently the translation
step returns normally (sentinel error file, no raise), and with every
segment failing synthesis the pipeline's `generate_audio` returns normally
(an all-silence merged file) — neither owning step raises. -/
theorem all_units_failed_no_raise_counterexample :
    translate_to_japanese oneRetryConfig (fun _ _ => .error "quota")
        (some "Speaker A: Hi.") "chunks" [] =
      .ok ("chunks",
        [("chunks/chunk_001_ERROR.txt",
          "Translation failed after 1 attempts\nLast error: quota\nChunk length: 14 characters\nModel: gpt-4\nTemperature: 0.3\n\nOriginal text:\nSpeaker A: Hi.")],
        [(1, 1)]) ∧
    generate_audio (fun _ => .error "tts down") (some "Speaker A: こんにちは。")
        "seg" "full.mp3" [] =
      .ok ("full.mp3",
        [("seg/segment_0001_Speaker_A.mp3", silenceContent),
         ("full.mp3", "seg/segment_0001_Speaker_A.mp3")]) :=
  ⟨rfl, rfl⟩

/-- Witness for the amended C3: the custom-voice regeneration path raises
when its only segment fails. -/
theorem all_units_failed_step_behaviour_witness :
    parse_dialogue_segments "Speaker A: こんにちは。".data =
      [('A', "こんにちは。".data)] ∧
    (∃ msg, generate_audio_with_custom_voices (fun _ => .error "tts down")
      (some "Speaker A: こんにちは。") "seg" "full.mp3" [] = .error msg) := by
  refine ⟨by decide, ?_⟩
  exact all_units_failed_step_behaviour.2.2 (fun _ => .error "tts down")
    "Speaker A: こんにちは。" "seg" "full.mp3" [] (by decide) (by decide)
    (fun _ => ⟨"tts down", rfl⟩)

/-! ## Chunk merging

Embedding of `ChunkMergingService.merge_translation_chunks`,
`_clean_chunk_content` and `_final_cleanup`
(`app/services/chunk_merging_service.py`).  The chunks directory is a
listing with file contents (`FileMap`), `none` standing for a missing
directory. -/

/-- Exact literal prefix match, returning the remainder. -/
def litPrefixRest : List Char → List Char → Option (List Char)
  | [], l => some l
  | _, [] => none
  | p :: ps, c :: cs => if c = p then litPrefixRest ps cs else none

/-- `str.startswith(pre)`. -/
def strStartsWith (s p : String) : Bool :=
  (litPrefixRest p.data s.data).isSome

/-- `str.endswith(suf)`. -/
def strEndsWith (s p : String) : Bool :=
  (litPrefixRest p.data.reverse s.data.reverse).isSome

/-- Digits to the number they denote. -/
def digitsToNat (ds : List Char) : Nat :=
  ds.foldl (fun a c => a * 10 + (c.toNat - '0'.toNat)) 0

/-- `re.match(r'chunk_(\d+)\.txt', filename)` as used for chunk selection:
the numeric group when the name has the success-chunk shape. -/
def chunkNumOf (name : List Char) : Option Nat :=
  match litPrefixRest "chunk_".data name with
  | none => none
  | some r =>
    let ds := r.takeWhile Char.isDigit
    if ds = [] then none
    else if r.drop ds.length = ".txt".data then some (digitsToNat ds)
    else none

/-- Stable insertion into a list sorted by chunk number (`list.sort` with
`key=lambda x: x[0]` keeps the original order of equal keys, so insertion
goes after equal keys). -/
def insertByNum (x : Nat × String × String) :
    List (Nat × String × String) → List (Nat × String × String)
  | [] => [x]
  | y :: ys => if x.1 < y.1 then x :: y :: ys else y :: insertByNum x ys

/-- `chunk_files.sort(key=lambda x: x[0])`: stable sort by chunk number. -/
def sortChunks (l : List (Nat × String × String)) : List (Nat × String × String) :=
  l.foldl (fun acc x => insertByNum x acc) []

/-- The selection loop over `os.listdir`: keep names that start with
`chunk_`, end with `.txt`, do not end with `_ERROR.txt`, and match
`chunk_(\d+)\.txt`; then sort by the numeric group. -/
def selectChunks (listing : FileMap) : List (Nat × String × String) :=
  sortChunks (listing.filterMap (fun e =>
    if strStartsWith e.1 "chunk_" ∧ strEndsWith e.1 ".txt" ∧
        ¬ strEndsWith e.1 "_ERROR.txt" then
      (chunkNumOf e.1.data).map (fun n => (n, e.1, e.2))
    else none))

/-- Earliest occurrence of a literal within the current line (no `\n` may be
crossed, `.` does not match newlines); returns the remainder after it. -/
def findLitInLine (close : List Char) : List Char → Option (List Char)
  | [] => if close = [] then some [] else none
  | l@(c :: rest) =>
    match litPrefixRest close l with
    | some r => some r
    | none => if c = '\n' then none else findLitInLine close rest

/-- One step of `re.sub(r'=== TRANSLATION CHUNK .*? ===\n?', '', content)`:
match the literal opening, the lazy newline-free gap, the literal ` ===` and
an optional newline, returning the remainder. -/
def matchMergeMarker (l : List Char) : Option (List Char) :=
  match litPrefixRest "=== TRANSLATION CHUNK ".data l with
  | none => none
  | some r1 =>
    match findLitInLine " ===".data r1 with
    | none => none
    | some r2 =>
      match r2 with
      | '\n' :: r3 => some r3
      | _ => some r2

/-- `re.sub(r'=== TRANSLATION CHUNK .*? ===\n?', '', content)`: leftmost,
non-overlapping removal.  Every match consumes at least one character, so
fuel equal to the input length never runs out. -/
def removeMergeMarkersFuel : Nat → List Char → List Char
  | 0, l => l
  | _ + 1, [] => []
  | fuel + 1, c :: rest =>
    match matchMergeMarker (c :: rest) with
    | some rem => removeMergeMarkersFuel fuel rem
    | none => c :: removeMergeMarkersFuel fuel rest

/-- The merge-marker removal pass of `_clean_chunk_content`. -/
def removeMergeMarkers (l : List Char) : List Char :=
  removeMergeMarkersFuel l.length l

/-- `re.sub(r'\r\n', '\n', content)`. -/
def crlfToLf : List Char → List Char
  | [] => []
  | '\r' :: '\n' :: rest => '\n' :: crlfToLf rest
  | c :: rest => c :: crlfToLf rest

/-- Replacement for one maximal whitespace run under
`re.sub(r'\n\s*\n\s*\n+', '\n\n', content)`: a run holding three or more
newlines matches from its first to its last newline (the greedy `\s*`
within), so it collapses to the run's leading spaces, a blank line, and the
run's trailing spaces; smaller runs are untouched. -/
def emitWsRun (run : List Char) : List Char :=
  if 3 ≤ run.count '\n' then
    (run.takeWhile (fun c => c ≠ '\n')) ++ '\n' :: '\n' ::
      (run.reverse.takeWhile (fun c => c ≠ '\n')).reverse
  else run

/-- `re.sub(r'\n\s*\n\s*\n+', '\n\n', content)`: process each maximal
whitespace run (matches cannot cross non-whitespace). -/
def collapseWsNlRuns : List Char → List Char → List Char
  | [], run => emitWsRun run
  | c :: rest, run =>
    if isPySpace c then collapseWsNlRuns rest (run ++ [c])
    else emitWsRun run ++ c :: collapseWsNlRuns rest []

/-- `_clean_chunk_content`: strip any included markers, strip, normalise
line endings, collapse excessive blank runs. -/
def clean_chunk_content (content : List Char) : List Char :=
  collapseWsNlRuns (crlfToLf (pyStrip (removeMergeMarkers content))) []

/-- The per-line step of `_final_cleanup`: keep marker lines, enforce
single-space-after-colon on speaker lines, keep non-blank lines, blank the
rest. -/
def finalCleanupLine (line : List Char) : List Char :=
  if (litPrefixRest "=== TRANSLATION CHUNK".data line).isSome then line
  else
    match speakerHeadSplit line with
    | some (c, t) => speakerName c ++ ':' :: ' ' :: t.dropWhile isPySpace
    | none => if pyStrip line ≠ [] then line else []

/-- `_final_cleanup`: per-line normalisation, blank-run collapse, and a
single trailing newline. -/
def final_cleanup (content : List Char) : List Char :=
  rstrip (collapseWsNlRuns
    (joinLines ((splitLines content).map finalCleanupLine)) []) ++ ['\n']

/-- The marker line `=== TRANSLATION CHUNK chunk_<num:03>.txt ===` inserted
between chunks. -/
def mergeMarkerLine (n : Nat) : String :=
  "=== TRANSLATION CHUNK chunk_" ++ pad3 n ++ ".txt ==="

/-- Embedding of `merge_translation_chunks`: select and sort the success
chunk files, concatenate their cleaned contents separated by marker lines
and blank lines (skipping empty chunks), run `_final_cleanup`, and write the
output file. -/
def merge_translation_chunks (chunks_dir : String) (dir : Option FileMap)
    (output_file : String) (outFm : FileMap) : Except String (String × FileMap) :=
  match dir with
  | none => .error ("Chunk merging failed: Chunks directory not found: " ++ chunks_dir)
  | some listing =>
    let chunk_files := selectChunks listing
    if chunk_files = [] then
      .error ("Chunk merging failed: No valid chunk files found in " ++ chunks_dir)
    else
      let merged_content := chunk_files.foldl
        (fun acc e =>
          let c := pyStrip e.2.2.data
          if c ≠ [] then
            acc ++ [mergeMarkerLine e.1, String.mk (clean_chunk_content c), ""]
          else acc)
        []
      if merged_content = [] then
        .error "Chunk merging failed: No content was successfully merged from chunks"
      else
        .ok (output_file,
          fmWrite outFm output_file
            (String.mk (final_cleanup (strJoin "\n" merged_content).data)))

/-- Membership is invariant under sorted insertion. -/
theorem mem_insertByNum (x y : Nat × String × String) (l : List (Nat × String × String)) :
    y ∈ insertByNum x l ↔ y = x ∨ y ∈ l := by
  induction l with
  | nil => simp [insertByNum]
  | cons z zs ih =>
    by_cases h : x.1 < z.1
    · simp [insertByNum, h]
      try tauto
    · simp [insertByNum, h, ih]
      try tauto

/-- Sorted insertion preserves being sorted by chunk number. -/
theorem insertByNum_pairwise (x : Nat × String × String)
    (l : List (Nat × String × String))
    (h : l.Pairwise (fun a b => a.1 ≤ b.1)) :
    (insertByNum x l).Pairwise (fun a b => a.1 ≤ b.1) := by
  induction l with
  | nil => simp [insertByNum]
  | cons z zs ih =>
    rw [List.pairwise_cons] at h
    obtain ⟨hz, hzs⟩ := h
    by_cases hlt : x.1 < z.1
    · simp only [insertByNum, if_pos hlt]
      rw [List.pairwise_cons]
      constructor
      · intro b hb
        rw [List.mem_cons] at hb
        rcases hb with rfl | hb
        · omega
        · exact le_trans (le_of_lt hlt) (hz b hb)
      · exact List.pairwise_cons.mpr ⟨hz, hzs⟩
    · simp only [insertByNum, if_neg hlt]
      rw [List.pairwise_cons]
      constructor
      · intro b hb
        rcases (mem_insertByNum x b zs).mp hb with rfl | hb
        · omega
        · exact hz b hb
      · exact ih hzs

/-- The fold underlying `sortChunks` keeps its accumulator sorted. -/
theorem sortChunks_fold_pairwise (l acc : List (Nat × String × String))
    (h : acc.Pairwise (fun a b => a.1 ≤ b.1)) :
    (l.foldl (fun acc x => insertByNum x acc) acc).Pairwise (fun a b => a.1 ≤ b.1) := by
  induction l generalizing acc with
  | nil => simpa using h
  | cons z zs ih => exact ih (insertByNum z acc) (insertByNum_pairwise z acc h)

/-- Membership in the fold underlying `sortChunks`. -/
theorem sortChunks_fold_mem (y : Nat × String × String)
    (l acc : List (Nat × String × String)) :
    y ∈ l.foldl (fun acc x => insertByNum x acc) acc ↔ y ∈ acc ∨ y ∈ l := by
  induction l generalizing acc with
  | nil => simp
  | cons z zs ih =>
    simp only [List.foldl_cons, ih, mem_insertByNum, List.mem_cons]
    tauto

/-- `sortChunks` is a reordering: same members, sorted. -/
theorem mem_sortChunks (y : Nat × String × String) (l : List (Nat × String × String)) :
    y ∈ sortChunks l ↔ y ∈ l := by
  simp [sortChunks, sortChunks_fold_mem]

/-- A whitespace run holding three or more newlines is collapsed to exactly
one blank line (two newlines). -/
theorem emitWsRun_count (run : List Char) (h : 3 ≤ run.count '\n') :
    (emitWsRun run).count '\n' = 2 := by
  have htw : ∀ (m : List Char),
      List.count '\n' (m.takeWhile (fun c => !decide (c = '\n'))) = 0 := by
    intro m
    refine List.count_eq_zero.mpr ?_
    intro hm
    have h2 := List.mem_takeWhile_imp hm
    simp at h2
  simp only [emitWsRun, if_pos h]
  simp [List.count_append, List.count_reverse, htw]
  try omega

/-- The head of a `dropWhile` fails the predicate. -/
theorem dropWhile_head_prop (p : Char → Bool) (m : List Char) (c : Char)
    (h : (m.dropWhile p).head? = some c) : p c = false := by
  induction m with
  | nil => simp [List.dropWhile] at h
  | cons a as ih =>
    rw [List.dropWhile_cons] at h
    by_cases hp : p a = true
    · rw [if_pos hp] at h
      exact ih h
    · rw [if_neg hp] at h
      simp at h
      rw [← h]
      simpa using hp

/-- `rstrip` leaves no trailing whitespace. -/
theorem rstrip_getLast_not_space (l : List Char) (c : Char)
    (h : (rstrip l).getLast? = some c) : isPySpace c = false := by
  have hr : (rstrip l).getLast? = (l.reverse.dropWhile isPySpace).head? := by
    simp [rstrip, List.getLast?_reverse]
  rw [hr] at h
  exact dropWhile_head_prop isPySpace l.reverse c h

/-- C5 (counterexample): the merged output file still contains the
`=== TRANSLATION CHUNK` debug marker line; the merger does not strip the
marker afterward (`_final_cleanup` keeps marker lines for the cleaning
service). -/
theorem merged_file_keeps_marker_counterexample :
    merge_translation_chunks "chunks"
        (some [("chunk_001.txt", "Speaker A: こんにちは。")]) "merged.txt" []
      = .ok ("merged.txt",
          [("merged.txt",
            "=== TRANSLATION CHUNK chunk_001.txt ===\nSpeaker A: こんにちは。\n")]) ∧
    containsSub
      ("=== TRANSLATION CHUNK chunk_001.txt ===\nSpeaker A: こんにちは。\n").data
      ("=== TRANSLATION CHUNK".data) = true :=
  ⟨by rfl, by decide⟩

/-- C5 (amended): the merger selects exactly the names matching
`chunk_(\d+).txt` (excluding `_ERROR` sentinels), sorts them by numeric
chunk number, keeps the debug marker lines through `_final_cleanup` (they
are removed later by the cleaning service, not by the merger), collapses
whitespace runs holding three or more newlines to a single blank line,
enforces single-space-after-colon on speaker lines, and ends the output
with exactly one trailing newline. -/
theorem merge_translation_chunks_spec :
    (∀ listing : FileMap,
      (selectChunks listing).Pairwise (fun a b => a.1 ≤ b.1)) ∧
    (∀ (listing : FileMap) (x : Nat × String × String),
      x ∈ selectChunks listing ↔
        ((x.2.1, x.2.2) ∈ listing ∧ strStartsWith x.2.1 "chunk_" = true ∧
         strEndsWith x.2.1 ".txt" = true ∧ strEndsWith x.2.1 "_ERROR.txt" = false ∧
         chunkNumOf x.2.1.data = some x.1)) ∧
    (∀ line : List Char,
      (litPrefixRest "=== TRANSLATION CHUNK".data line).isSome = true →
        finalCleanupLine line = line) ∧
    (∀ run : List Char, 3 ≤ run.count '\n' → (emitWsRun run).count '\n' = 2) ∧
    (∀ (c : Char) (t : List Char), c ∈ speakerLetters →
      finalCleanupLine (speakerName c ++ ':' :: t)
        = speakerName c ++ ':' :: ' ' :: t.dropWhile isPySpace) ∧
    (∀ s : List Char, ∃ r : List Char, final_cleanup s = r ++ ['\n'] ∧
      ∀ c, r.getLast? = some c → isPySpace c = false) := by
  refine ⟨?_, ?_, ?_, ?_, ?_, ?_⟩
  · intro listing
    exact sortChunks_fold_pairwise _ [] (by simp)
  · intro listing x
    simp only [selectChunks, sortChunks, mem_sortChunks, sortChunks_fold_mem,
      List.not_mem_nil, false_or, List.mem_filterMap]
    constructor
    · rintro ⟨e, he, hfe⟩
      by_cases hc : strStartsWith e.1 "chunk_" = true ∧ strEndsWith e.1 ".txt" = true ∧
          ¬ strEndsWith e.1 "_ERROR.txt" = true
      · rw [if_pos hc] at hfe
        obtain ⟨n, hn, hx⟩ := Option.map_eq_some'.mp hfe
        subst hx
        exact ⟨by simpa using he, hc.1, hc.2.1, by simpa using hc.2.2, hn⟩
      · rw [if_neg hc] at hfe
        exact absurd hfe (by simp)
    · rintro ⟨hmem, h1, h2, h3, h4⟩
      refine ⟨(x.2.1, x.2.2), hmem, ?_⟩
      rw [if_pos ⟨h1, h2, by simp [h3]⟩]
      simp [h4]
  · intro line h
    simp [finalCleanupLine, h]
  · exact emitWsRun_count
  · intro c t hc
    have hc2 : speakerLetters.contains c = true := by simpa using hc
    simp [finalCleanupLine, litPrefixRest, speakerName, speakerHeadSplit, hc2, hc]
  · intro s
    refine ⟨rstrip (collapseWsNlRuns
      (joinLines ((splitLines s).map finalCleanupLine)) []), rfl, ?_⟩
    intro c hc
    exact rstrip_getLast_not_space _ c hc

/-- Witness for the merger specification at concrete inputs: numeric (not
lexicographic) ordering of `chunk_002` before `chunk_010`, marker-line
retention, blank-run collapse, speaker colon spacing, trailing newline. -/
theorem merge_translation_chunks_spec_witness :
    ((selectChunks [("chunk_010.txt", "t"), ("chunk_002.txt", "u")]).Pairwise
      (fun a b => a.1 ≤ b.1)) ∧
    ((2, "chunk_002.txt", "u") ∈
      selectChunks [("chunk_010.txt", "t"), ("chunk_002.txt", "u")]) ∧
    finalCleanupLine ("=== TRANSLATION CHUNK chunk_001.txt ===".data)
      = "=== TRANSLATION CHUNK chunk_001.txt ===".data ∧
    (emitWsRun ['\n', '\n', '\n', '\n']).count '\n' = 2 ∧
    finalCleanupLine (speakerName 'A' ++ ':' :: ' ' :: ' ' :: ['x'])
      = speakerName 'A' ++ ':' :: ' ' :: ['x'] ∧
    (∃ r : List Char, final_cleanup "Speaker A: x".data = r ++ ['\n'] ∧
      ∀ c, r.getLast? = some c → isPySpace c = false) :=
  ⟨merge_translation_chunks_spec.1 _,
   (merge_translation_chunks_spec.2.1 _ _).mpr (by decide),
   merge_translation_chunks_spec.2.2.1 _ (by decide),
   merge_translation_chunks_spec.2.2.2.1 _ (by decide),
   merge_translation_chunks_spec.2.2.2.2.1 'A' (' ' :: ' ' :: ['x']) (by decide),
   merge_translation_chunks_spec.2.2.2.2.2 _⟩

/-! ## Text cleaning

Embedding of `TextCleaningService.clean_japanese_text`
(`app/services/text_cleaning_service.py`): the five cleaning stages as
executable scanners over the file content. -/

/-- Case-insensitive occurrence of a literal within the current line (the
gap `.​*?` cannot cross a newline); returns the remainder after it. -/
def findCiInLine (tok : List Char) : List Char → Option (List Char)
  | [] => none
  | l@(c :: rest) =>
    match ciPrefixRest tok l with
    | some r => some r
    | none => if c = '\n' then none else findCiInLine tok rest

/-- One match of `=== TRANSLATION CHUNK chunk_\d+\.txt ===\s*\n?`
(IGNORECASE): the greedy `\s*` absorbs all trailing whitespace. -/
def matchMarkerP1 (l : List Char) : Option (List Char) :=
  match ciPrefixRest "=== TRANSLATION CHUNK chunk_".data l with
  | none => none
  | some r =>
    let ds := r.takeWhile Char.isDigit
    if ds = [] then none
    else
      match ciPrefixRest ".txt ===".data (r.drop ds.length) with
      | none => none
      | some r2 => some (r2.dropWhile isPySpace)

/-- One match of `=== TRANSLATION CHUNK .*? ===\s*\n?` (IGNORECASE, lazy
newline-free gap). -/
def matchMarkerP2 (l : List Char) : Option (List Char) :=
  match ciPrefixRest "=== TRANSLATION CHUNK ".data l with
  | none => none
  | some r =>
    match findLitInLine " ===".data r with
    | none => none
    | some r2 => some (r2.dropWhile isPySpace)

/-- The part of `===.*?CHUNK.*?===\s*\n?` after the opening `===`: find the
earliest `CHUNK` (case-insensitive) such that a closing `===` follows within
the line, backtracking over `CHUNK` occurrences as the lazy `.*?` does. -/
def matchMarkerP3Go : List Char → Option (List Char)
  | [] => none
  | l@(c :: rest) =>
    match ciPrefixRest "CHUNK".data l with
    | some r1 =>
      match findLitInLine "===".data r1 with
      | some r2 => some (r2.dropWhile isPySpace)
      | none => if c = '\n' then none else matchMarkerP3Go rest
    | none => if c = '\n' then none else matchMarkerP3Go rest

/-- One match of `===.*?CHUNK.*?===\s*\n?` (IGNORECASE). -/
def matchMarkerP3 (l : List Char) : Option (List Char) :=
  match litPrefixRest "===".data l with
  | none => none
  | some r => matchMarkerP3Go r

/-- One match of `=== chunk_\d+\.txt ===\s*\n?` (IGNORECASE). -/
def matchMarkerP4 (l : List Char) : Option (List Char) :=
  match ciPrefixRest "=== chunk_".data l with
  | none => none
  | some r =>
    let ds := r.takeWhile Char.isDigit
    if ds = [] then none
    else
      match ciPrefixRest ".txt ===".data (r.drop ds.length) with
      | none => none
      | some r2 => some (r2.dropWhile isPySpace)

/-- `re.sub(pattern, '', content)` for a matcher that consumes at least one
character on success: leftmost, non-overlapping, continuing after the match.
Fuel equal to the input length never runs out. -/
def removePatFuel (m : List Char → Option (List Char)) :
    Nat → List Char → List Char
  | 0, l => l
  | _ + 1, [] => []
  | fuel + 1, c :: rest =>
    match m (c :: rest) with
    | some rem => removePatFuel m fuel rem
    | none => c :: removePatFuel m fuel rest

/-- Run a removal pass over the whole input. -/
def removePat (m : List Char → Option (List Char)) (l : List Char) : List Char :=
  removePatFuel m l.length l

/-- `_remove_chunk_markers`: the four marker patterns applied in order. -/
def remove_chunk_markers (content : List Char) : List Char :=
  removePat matchMarkerP4 (removePat matchMarkerP3
    (removePat matchMarkerP2 (removePat matchMarkerP1 content)))

/-- The per-line step of `_clean_speaker_formatting`: strip, normalise
speaker lines (dropping those with empty text), keep nonempty lines, map
whitespace-only lines to empty ones; `none` drops the line. -/
def cleanSpeakerLine (line : List Char) : Option (List Char) :=
  let l := pyStrip line
  match speakerHeadSplit l with
  | some (c, t) =>
    let text_part := pyStrip (' ' :: t.dropWhile isPySpace)
    if text_part ≠ [] then some (speakerName c ++ ':' :: ' ' :: t.dropWhile isPySpace)
    else none
  | none => if l ≠ [] then some l else some []

/-- `_clean_speaker_formatting`. -/
def clean_speaker_formatting (content : List Char) : List Char :=
  joinLines ((splitLines content).filterMap cleanSpeakerLine)

/-- Earliest occurrence of a literal anywhere in the input (the gap `.​*?`
under `re.DOTALL` crosses newlines); returns the remainder after it. -/
def findLitAnywhere (close : List Char) : List Char → Option (List Char)
  | [] => none
  | l@(_ :: rest) =>
    match litPrefixRest close l with
    | some r => some r
    | none => findLitAnywhere close rest

/-- One match of a lazily delimited artifact pattern such as
`\[翻訳者注:.*?\]` or `\*\*.*?\*\*` under `re.DOTALL`. -/
def matchDelim (opn close : List Char) (l : List Char) : Option (List Char) :=
  match litPrefixRest opn l with
  | none => none
  | some r => findLitAnywhere close r

/-- One match of `---+` / `===+`: three or more of the character, greedy. -/
def matchRun (ch : Char) (l : List Char) : Option (List Char) :=
  match litPrefixRest [ch, ch, ch] l with
  | none => none
  | some r => some (r.dropWhile (fun c => c = ch))

/-- One match of `<[^>]+>`. -/
def matchHtml (l : List Char) : Option (List Char) :=
  match l with
  | '<' :: rest =>
    let gap := rest.takeWhile (fun c => c ≠ '>')
    if gap = [] then none
    else
      match rest.drop gap.length with
      | '>' :: r => some r
      | _ => none
  | _ => none

/-- One match of `https?://\S+` (greedy trailing nonspace run; the optional
`s` backtracks). -/
def matchUrl (l : List Char) : Option (List Char) :=
  match litPrefixRest "http".data l with
  | none => none
  | some r =>
    let tryTail := fun (r2 : List Char) =>
      match litPrefixRest "://".data r2 with
      | none => none
      | some r3 =>
        let w := r3.takeWhile (fun c => ¬ isPySpace c)
        if w = [] then none else some (r3.drop w.length)
    match r with
    | 's' :: rs =>
      match tryTail rs with
      | some x => some x
      | none => tryTail r
    | _ => tryTail r

/-- Whether `\S+@\S+\.\S+` matches inside a maximal nonspace run: an `@` at
position ≥ 1, a `.` at least two further, and at least one character after
the `.`.  When it does, the leftmost match starts at the run's start and the
greedy final `\S+` extends to its end, so the whole run is removed. -/
def emailRunMatches (r : List Char) : Bool :=
  (List.range r.length).any (fun a =>
    decide (1 ≤ a) && decide (r.getD a ' ' = '@') &&
      (List.range r.length).any (fun d =>
        decide (a + 2 ≤ d) && decide (d + 2 ≤ r.length) &&
          decide (r.getD d ' ' = '.')))

/-- `re.sub(r'\S+@\S+\.\S+', '', content)`: drop every maximal nonspace run
in which the email pattern matches. -/
def removeEmailsGo : List Char → List Char → List Char
  | [], run => if emailRunMatches run then [] else run
  | c :: rest, run =>
    if isPySpace c then
      (if emailRunMatches run then [] else run) ++ c :: removeEmailsGo rest []
    else removeEmailsGo rest (run ++ [c])

/-- `_remove_artifacts`: the nine artifact patterns (DOTALL), then HTML-like
tags, URLs and email addresses. -/
def remove_artifacts (content : List Char) : List Char :=
  removeEmailsGo (removePat matchUrl (removePat matchHtml
    (removePat (matchRun '=') (removePat (matchRun '-')
    (removePat (matchDelim "```".data "```".data)
    (removePat (matchDelim "##".data "##".data)
    (removePat (matchDelim "__".data "__".data)
    (removePat (matchDelim "**".data "**".data)
    (removePat (matchDelim "(翻訳:".data ")".data)
    (removePat (matchDelim "[注:".data "]".data)
    (removePat (matchDelim "[翻訳者注:".data "]".data) content))))))))))) []

/-- The line loop of `_normalize_spacing`: strip each line, keep nonempty
lines, and keep only the first of consecutive empty lines. -/
def normLinesGo : List (List Char) → Bool → List (List Char)
  | [], _ => []
  | line :: rest, prevEmpty =>
    let l := pyStrip line
    if l = [] then
      if prevEmpty then normLinesGo rest true
      else [] :: normLinesGo rest true
    else l :: normLinesGo rest false

/-- `re.sub(r'\n{3,}', '\n\n', content)`: collapse runs of three or more
newlines. -/
def collapseNlRuns : List Char → List Char → List Char
  | [], run => if 3 ≤ run.length then ['\n', '\n'] else run
  | c :: rest, run =>
    if c = '\n' then collapseNlRuns rest (run ++ [c])
    else (if 3 ≤ run.length then ['\n', '\n'] else run) ++ c :: collapseNlRuns rest []

/-- The loop of the cleaning service's `_add_speaker_spacing`: on a speaker
change, pop trailing blank lines and insert two empty lines; whitespace-only
lines become empty lines. -/
def csSpacingGo : List (List Char) → Option Char → List (List Char) → List (List Char)
  | [], _, spaced => spaced
  | line :: rest, cur, spaced =>
    if pyStrip line = [] then csSpacingGo rest cur (spaced ++ [[]])
    else
      match speakerHeadSplit line with
      | some (c, _) =>
        let spaced2 :=
          if cur ≠ none ∧ cur ≠ some c then
            (spaced.reverse.dropWhile (fun l => (pyStrip l).isEmpty)).reverse ++ [[], []]
          else spaced
        csSpacingGo rest (some c) (spaced2 ++ [line])
      | none => csSpacingGo rest cur (spaced ++ [line])

/-- The cleaning service's `_add_speaker_spacing`. -/
def cs_add_speaker_spacing (content : List Char) : List Char :=
  joinLines (csSpacingGo (splitLines content) none [])

/-- `_normalize_spacing`: strip lines, deduplicate empty lines, collapse
newline runs, then add speaker spacing. -/
def normalize_spacing (content : List Char) : List Char :=
  cs_add_speaker_spacing
    (collapseNlRuns (joinLines (normLinesGo (splitLines content) false)) [])

/-- `re.sub(r'。\s*。', '。', content)` / `r'、\s*、'`: collapse a doubled
punctuation mark around optional whitespace, non-overlapping, continuing
after each match.  The second argument holds a pending first mark and the
whitespace read after it. -/
def pairCollapse (p : Char) : List Char → List Char → List Char
  | [], pend => pend
  | c :: rest, pend =>
    match pend with
    | [] =>
      if c = p then pairCollapse p rest [c]
      else c :: pairCollapse p rest []
    | _ =>
      if isPySpace c then pairCollapse p rest (pend ++ [c])
      else if c = p then p :: pairCollapse p rest []
      else pend ++ c :: pairCollapse p rest []

/-- The sentence-ending marks of `([。！？])`. -/
def isJpEnd (c : Char) : Bool := c = '。' || c = '！' || c = '？'

/-- The punctuation class of `([、。！？])`. -/
def isJpPunct (c : Char) : Bool := c = '、' || c = '。' || c = '！' || c = '？'

/-- `re.sub(r'([。！？])\s+', r'\1 ', content)`: a sentence-ending mark
followed by whitespace keeps the mark plus one space; the flag skips the
matched whitespace run. -/
def punctSpaceGo : List Char → Bool → List Char
  | [], _ => []
  | c :: rest, skip =>
    if skip ∧ isPySpace c then punctSpaceGo rest true
    else if isJpEnd c && (match rest.head? with | some d => isPySpace d | none => false) then
      c :: ' ' :: punctSpaceGo rest true
    else c :: punctSpaceGo rest false

/-- `re.sub(r'\s+([、。！？])', r'\1', content)`: whitespace before
punctuation is dropped.  The second argument accumulates the current
whitespace run. -/
def wsPunctGo : List Char → List Char → List Char
  | [], run => run
  | c :: rest, run =>
    if isPySpace c then wsPunctGo rest (run ++ [c])
    else if run ≠ [] ∧ isJpPunct c then c :: wsPunctGo rest []
    else run ++ c :: wsPunctGo rest []

/-- `re.sub(r'  +', ' ', line)`: collapse runs of two or more spaces. -/
def collapseSpaceRuns : List Char → List Char → List Char
  | [], run => if 2 ≤ run.length then [' '] else run
  | c :: rest, run =>
    if c = ' ' then collapseSpaceRuns rest (run ++ [c])
    else (if 2 ≤ run.length then [' '] else run) ++ c :: collapseSpaceRuns rest []

/-- The per-line step of `_final_japanese_cleanup`: rebuild speaker lines
from their stripped parts and collapse internal space runs; whitespace-only
lines pass through unchanged. -/
def finalJpLine (line : List Char) : List Char :=
  if pyStrip line ≠ [] then
    let l2 :=
      match speakerHeadSplit line with
      | some (c, t) => pyStrip (speakerName c) ++ ':' :: ' ' :: pyStrip t
      | none => line
    collapseSpaceRuns l2 []
  else line

/-- `_final_japanese_cleanup`: doubled punctuation, punctuation spacing, the
per-line pass, and `content.strip() + '\n'`. -/
def final_japanese_cleanup (content : List Char) : List Char :=
  let c1 := pairCollapse '。' content []
  let c2 := pairCollapse '、' c1 []
  let c3 := punctSpaceGo c2 false
  let c4 := wsPunctGo c3 []
  let c5 := joinLines ((splitLines c4).map finalJpLine)
  pyStrip c5 ++ ['\n']

/-- `clean_japanese_text`: the five cleaning stages in order. -/
def clean_japanese_text (content : List Char) : List Char :=
  final_japanese_cleanup (normalize_spacing (remove_artifacts
    (clean_speaker_formatting (remove_chunk_markers content))))

/-- `splitOnChar` never returns an empty list of pieces. -/
theorem splitOnChar_ne_nil (sep : Char) (l : List Char) :
    splitOnChar sep l ≠ [] := by
  induction l with
  | nil => simp [splitOnChar]
  | cons c rest ih =>
    simp only [splitOnChar]
    by_cases h : c = sep
    · simp [h]
    · simp only [if_neg h]
      rcases hr : splitOnChar sep rest with _ | ⟨p, ps⟩
      · simp
      · simp

/-- No piece produced by `splitOnChar` contains the separator. -/
theorem not_mem_splitOnChar (sep : Char) (l : List Char) :
    ∀ p ∈ splitOnChar sep l, sep ∉ p := by
  induction l with
  | nil =>
    intro p hp
    simp [splitOnChar] at hp
    simp [hp]
  | cons c rest ih =>
    intro p hp
    simp only [splitOnChar] at hp
    by_cases h : c = sep
    · rw [if_pos h] at hp
      rcases List.mem_cons.mp hp with rfl | hp
      · simp
      · exact ih p hp
    · rw [if_neg h] at hp
      rcases hr : splitOnChar sep rest with _ | ⟨p0, ps⟩
      · exact absurd hr (splitOnChar_ne_nil sep rest)
      · rw [hr] at hp
        rcases List.mem_cons.mp hp with rfl | hp
        · intro hmem
          rcases List.mem_cons.mp hmem with rfl | hmem
          · exact h rfl
          · exact ih p0 (hr ▸ List.mem_cons_self p0 ps) hmem
        · exact ih p (hr ▸ List.mem_cons_of_mem p0 hp)

/-- Splitting a separator-free piece yields just that piece. -/
theorem splitOnChar_no_sep (sep : Char) (x : List Char) (hx : sep ∉ x) :
    splitOnChar sep x = [x] := by
  induction x with
  | nil => simp [splitOnChar]
  | cons c cs ih =>
    have hc : ¬ c = sep := fun h => hx (h ▸ List.mem_cons_self c cs)
    have hcs : sep ∉ cs := fun h => hx (List.mem_cons_of_mem c h)
    simp only [splitOnChar, if_neg hc, ih hcs]

/-- Splitting at an explicit separator after a separator-free prefix. -/
theorem splitOnChar_append (sep : Char) (x r : List Char) (hx : sep ∉ x) :
    splitOnChar sep (x ++ sep :: r) = x :: splitOnChar sep r := by
  induction x with
  | nil => simp [splitOnChar]
  | cons c cs ih =>
    have hc : ¬ c = sep := fun h => hx (h ▸ List.mem_cons_self c cs)
    have hcs : sep ∉ cs := fun h => hx (List.mem_cons_of_mem c h)
    simp only [List.cons_append, splitOnChar, if_neg hc]
    have h2 : splitOnChar sep (cs.append (sep :: r)) = cs :: splitOnChar sep r := ih hcs
    rw [h2]

/-- `joinLines` on a list with at least two pieces. -/
theorem joinLines_cons_cons (x y : List Char) (ys : List (List Char)) :
    joinLines (x :: y :: ys) = x ++ '\n' :: joinLines (y :: ys) := by
  simp [joinLines, List.intersperse]

/-- `'\n'.join` then `split('\n')` restores the pieces when none of them
contains a newline. -/
theorem splitLines_joinLines (ls : List (List Char)) (hne : ls ≠ [])
    (h : ∀ p ∈ ls, '\n' ∉ p) : splitLines (joinLines ls) = ls := by
  induction ls with
  | nil => exact absurd rfl hne
  | cons x ys ih =>
    rcases ys with _ | ⟨y, ys'⟩
    · rw [joinLines_singleton]
      exact splitOnChar_no_sep '\n' x (h x (List.mem_cons_self x []))
    · rw [joinLines_cons_cons]
      unfold splitLines
      rw [splitOnChar_append '\n' x _ (h x (List.mem_cons_self x _))]
      have := ih (by simp) (fun p hp => h p (List.mem_cons_of_mem x hp))
      unfold splitLines at this
      rw [this]

/-- A map that fixes every element of a list filter-maps to the list
itself. -/
theorem filterMap_eq_self (f : List Char → Option (List Char))
    (xs : List (List Char)) (h : ∀ x ∈ xs, f x = some x) :
    xs.filterMap f = xs := by
  induction xs with
  | nil => simp
  | cons x ys ih =>
    rw [List.filterMap_cons, h x (List.mem_cons_self x ys),
      ih (fun z hz => h z (List.mem_cons_of_mem x hz))]

/-- `dropWhile` is idempotent. -/
theorem dropWhile_self (p : Char → Bool) (l : List Char) :
    (l.dropWhile p).dropWhile p = l.dropWhile p := by
  rcases h : l.dropWhile p with _ | ⟨a, as⟩
  · simp
  · have ha : p a = false := dropWhile_head_prop p l a (by rw [h]; rfl)
    rw [List.dropWhile_cons, if_neg (by simp [ha])]

/-- A list whose last element is not whitespace is already right-stripped. -/
theorem rstrip_eq_self (m : List Char) (z : Char) (hz : m.getLast? = some z)
    (h : isPySpace z = false) : rstrip m = m := by
  unfold rstrip
  rcases hr : m.reverse with _ | ⟨y, ys⟩
  · simp_all
  · have hy : y = z := by
      have := List.head?_reverse m
      rw [hr] at this
      simp at this
      rw [← this] at hz
      simpa using hz
    rw [List.dropWhile_cons, if_neg (by simp [hy, h]), ← hr, List.reverse_reverse]

/-- A left-stripped list stays left-stripped after right-stripping. -/
theorem lstrip_rstrip (m : List Char) (hm : lstrip m = m) :
    lstrip (rstrip m) = rstrip m := by
  have hsuf : (m.reverse.dropWhile isPySpace) <:+ m.reverse :=
    List.dropWhile_suffix _
  obtain ⟨pre, hpre⟩ := hsuf
  have hm2 : m = rstrip m ++ pre.reverse := by
    have := congrArg List.reverse hpre
    simp only [List.reverse_append, List.reverse_reverse] at this
    unfold rstrip
    exact this.symm
  rcases hr : rstrip m with _ | ⟨z, zs⟩
  · simp [lstrip]
  · have hz : isPySpace z = false := by
      have hmz : m = z :: (zs ++ pre.reverse) := by rw [hm2, hr]; simp
      by_contra hzz
      have hzz' : isPySpace z = true := by
        cases hq : isPySpace z
        · exact absurd hq hzz
        · rfl
      have : lstrip m = (zs ++ pre.reverse).dropWhile isPySpace := by
        rw [hmz]
        unfold lstrip
        rw [List.dropWhile_cons, if_pos (by simp [hzz'])]
      rw [hm] at this
      have hlen := congrArg List.length this
      have hle : ((zs ++ pre.reverse).dropWhile isPySpace).length ≤
          (zs ++ pre.reverse).length :=
        (List.dropWhile_sublist (l := zs ++ pre.reverse) (p := isPySpace)).length_le
      rw [hmz] at hlen
      simp only [List.length_cons] at hlen
      omega
    unfold lstrip
    rw [List.dropWhile_cons, if_neg (by simp [hz])]

/-- `str.strip()` is idempotent. -/
theorem pyStrip_idem (l : List Char) : pyStrip (pyStrip l) = pyStrip l := by
  unfold pyStrip
  have h1 : lstrip (lstrip l) = lstrip l := dropWhile_self isPySpace l
  have h2 : lstrip (rstrip (lstrip l)) = rstrip (lstrip l) := lstrip_rstrip _ h1
  rw [h2]
  unfold rstrip
  rw [List.reverse_reverse, dropWhile_self]

/-- Characters of a stripped list come from the original. -/
theorem mem_pyStrip (x : Char) (l : List Char) (h : x ∈ pyStrip l) : x ∈ l := by
  unfold pyStrip rstrip lstrip at h
  have h1 := (List.dropWhile_sublist
    (l := (l.dropWhile isPySpace).reverse) (p := isPySpace)).subset
    (List.mem_reverse.mp h)
  exact (List.dropWhile_sublist (l := l) (p := isPySpace)).subset
    (List.mem_reverse.mp (by simpa using h1))

/-- Characters surviving `dropWhile` come from the original. -/
theorem mem_dropWhile (x : Char) (p : Char → Bool) (l : List Char)
    (h : x ∈ l.dropWhile p) : x ∈ l :=
  (List.dropWhile_sublist (l := l) (p := p)).subset h

/-- Unpacking a successful speaker-head match. -/
theorem speakerHeadSplit_eq (l : List Char) (c : Char) (t : List Char)
    (h : speakerHeadSplit l = some (c, t)) :
    l = speakerName c ++ ':' :: t ∧ speakerLetters.contains c = true := by
  unfold speakerHeadSplit at h
  split at h
  · split at h
    · simp only [Option.some.injEq, Prod.mk.injEq] at h
      obtain ⟨rfl, rfl⟩ := h
      simp_all [speakerName]
    · simp at h
  · simp at h

/-- A line produced by the speaker-formatting pass is a fixed point of the
per-line cleaning step. -/
theorem cleanSpeakerLine_idem (line out : List Char)
    (h : cleanSpeakerLine line = some out) : cleanSpeakerLine out = some out := by
  unfold cleanSpeakerLine at h
  rcases hs : speakerHeadSplit (pyStrip line) with _ | ⟨c, t⟩
  · simp only [hs] at h
    by_cases hl : pyStrip line = []
    · rw [if_neg (by simp [hl])] at h
      simp only [Option.some.injEq] at h
      subst h
      rfl
    · rw [if_pos hl] at h
      simp only [Option.some.injEq] at h
      subst h
      unfold cleanSpeakerLine
      simp only [pyStrip_idem, hs]
      rw [if_pos hl]
  · simp only [hs] at h
    split at h
    case isFalse => simp at h
    case isTrue htp =>
      simp only [Option.some.injEq] at h
      subst h
      obtain ⟨hleq, hcont⟩ := speakerHeadSplit_eq _ c t hs
      have hrne : t.dropWhile isPySpace ≠ [] := by
        intro hre
        apply htp
        rw [hre]
        rfl
      obtain ⟨r0, rs, hr0⟩ : ∃ r0 rs, t.dropWhile isPySpace = r0 :: rs := by
        rcases hq : t.dropWhile isPySpace with _ | ⟨a, b⟩
        · exact absurd hq hrne
        · exact ⟨a, b, rfl⟩
      have hr0ws : isPySpace r0 = false :=
        dropWhile_head_prop isPySpace t r0 (by rw [hr0]; rfl)
      obtain ⟨pre2, hpre2⟩ : t.dropWhile isPySpace <:+ t := List.dropWhile_suffix _
      have hsplitl : pyStrip line =
          (speakerName c ++ ':' :: pre2) ++ t.dropWhile isPySpace := by
        rw [hleq]
        conv_lhs => rw [← hpre2]
        simp
      have hlast : (t.dropWhile isPySpace).getLast? = (pyStrip line).getLast? := by
        rw [hsplitl, List.getLast?_append_of_ne_nil _ hrne]
      rcases hz : (t.dropWhile isPySpace).getLast? with _ | z
      · exact absurd (List.getLast?_eq_none_iff.mp hz) hrne
      have hzws : isPySpace z = false := by
        apply rstrip_getLast_not_space (lstrip line) z
        have : pyStrip line = rstrip (lstrip line) := rfl
        rw [← this, ← hlast, hz]
      have hrstr : rstrip (t.dropWhile isPySpace) = t.dropWhile isPySpace :=
        rstrip_eq_self _ z hz hzws
      have hcons : speakerName c ++ ':' :: ' ' :: t.dropWhile isPySpace =
          'S' :: 'p' :: 'e' :: 'a' :: 'k' :: 'e' :: 'r' :: ' ' :: c :: ':' :: ' ' ::
            t.dropWhile isPySpace := by
        simp [speakerName]
      have hls : lstrip (speakerName c ++ ':' :: ' ' :: t.dropWhile isPySpace) =
          speakerName c ++ ':' :: ' ' :: t.dropWhile isPySpace := by
        rw [hcons]
        unfold lstrip
        rw [List.dropWhile_cons, if_neg (by simp [isPySpace])]
      have happ : speakerName c ++ ':' :: ' ' :: t.dropWhile isPySpace =
          (speakerName c ++ [':', ' ']) ++ t.dropWhile isPySpace := by
        simp
      have hstripout : pyStrip (speakerName c ++ ':' :: ' ' :: t.dropWhile isPySpace) =
          speakerName c ++ ':' :: ' ' :: t.dropWhile isPySpace := by
        unfold pyStrip
        rw [hls, happ, rstrip_append _ _ hrstr hrne, ← happ]
      have hshs : speakerHeadSplit (speakerName c ++ ':' :: ' ' :: t.dropWhile isPySpace) =
          some (c, ' ' :: t.dropWhile isPySpace) := by
        rw [hcons]
        have hcm : c ∈ speakerLetters := by simpa using hcont
        simp [speakerHeadSplit, hcm]
      have hdw : (' ' :: t.dropWhile isPySpace).dropWhile isPySpace =
          t.dropWhile isPySpace := by
        rw [List.dropWhile_cons, if_pos (by simp [isPySpace]), hr0,
          List.dropWhile_cons, if_neg (by simp [hr0ws])]
      unfold cleanSpeakerLine
      simp only [hstripout, hshs, hdw]
      simp [htp]

/-- The speaker-formatting pass never introduces a newline into a line. -/
theorem cleanSpeakerLine_no_nl (line out : List Char)
    (h : cleanSpeakerLine line = some out) (hn : '\n' ∉ line) : '\n' ∉ out := by
  unfold cleanSpeakerLine at h
  rcases hs : speakerHeadSplit (pyStrip line) with _ | ⟨c, t⟩
  · simp only [hs] at h
    split at h
    · simp only [Option.some.injEq] at h
      subst h
      intro hmem
      exact hn (mem_pyStrip _ _ hmem)
    · simp only [Option.some.injEq] at h
      subst h
      simp
  · simp only [hs] at h
    split at h
    case isFalse => simp at h
    case isTrue htp =>
      simp only [Option.some.injEq] at h
      subst h
      obtain ⟨hleq, hcont⟩ := speakerHeadSplit_eq _ c t hs
      intro hmem
      simp only [speakerName, List.mem_append, List.mem_cons] at hmem
      rcases hmem with hmem | hmem
      · simp at hmem
        have hcm : c ∈ speakerLetters := by simpa using hcont
        rw [← hmem] at hcm
        simp [speakerLetters] at hcm
      · rcases hmem with h1 | hmem
        · exact absurd h1 (by decide)
        rcases hmem with h1 | hmem
        · exact absurd h1 (by decide)
        · have ht := mem_dropWhile _ _ _ hmem
          have hpl : '\n' ∈ pyStrip line := by
            rw [hleq]
            simp [ht]
          exact hn (mem_pyStrip _ _ hpl)

/-- C6 (counterexample): the full cleaning pass is not idempotent.  Each
`re.sub(r'。\s*。', '。', …)` pass collapses doubled periods only once per
scan, and the trailing-newline normalisation feeds new punctuation-whitespace
contexts into the next run, so `。。。` cleans to `。。`, which cleans to
`。`. -/
theorem clean_japanese_text_not_idempotent_counterexample :
    clean_japanese_text "。。。".data = "。。\n".data ∧
    clean_japanese_text (clean_japanese_text "。。。".data) = "。\n".data ∧
    clean_japanese_text (clean_japanese_text "。。。".data)
      ≠ clean_japanese_text "。。。".data := by
  refine ⟨by decide, by decide, by decide⟩

/-- C6 (amended): the speaker-formatting stage of the cleaning service is
idempotent: applying `_clean_speaker_formatting` twice yields the same
result as applying it once, for every input text. -/
theorem clean_speaker_formatting_idempotent (content : List Char) :
    clean_speaker_formatting (clean_speaker_formatting content)
      = clean_speaker_formatting content := by
  have hkey : ∀ p ∈ (splitLines content).filterMap cleanSpeakerLine,
      cleanSpeakerLine p = some p ∧ '\n' ∉ p := by
    intro p hp
    obtain ⟨line, hline, hfl⟩ := List.mem_filterMap.mp hp
    exact ⟨cleanSpeakerLine_idem line p hfl,
      cleanSpeakerLine_no_nl line p hfl (not_mem_splitOnChar '\n' content line hline)⟩
  by_cases hne : (splitLines content).filterMap cleanSpeakerLine = []
  · unfold clean_speaker_formatting
    rw [hne]
    rfl
  · unfold clean_speaker_formatting
    rw [splitLines_joinLines _ hne (fun p hp => (hkey p hp).2),
      filterMap_eq_self _ _ (fun p hp => (hkey p hp).1)]

end AudioTranslation
